import Mathlib

/-!
Verification of the flow-processor pipeline: a shallow embedding of the
validator (`validator.go`), the ingest loop (`main.go` / `runIngest`), the
rotating batch writer (`batch_writer.go`) and the FTP uploader
(`uploader.go`), together with theorems about the properties the design
document states for them.

Strings are modelled as Lean `String` (lists of characters); Go's byte
lengths are modelled with `utf8Len` (the UTF-8 byte size of the character
list).  Go's `int`/`int64` counters are modelled as `Nat`; the `int64`
overflow region (beyond 2^63 raw bytes in one archive) is unreachable for
any input considered here.  Wall-clock instants are modelled as
nanosecond counts (`Nat`), matching `time.Time.UnixNano` / `time.Since`.
-/

/-! ### Character-list string utilities (Go `strings` package operations) -/

/-- Go `unicode.IsSpace` on the characters that can actually occur around
CSV fields: ASCII space, tab, newline, vertical tab, form feed, carriage
return, next-line and no-break space. -/
def isSpaceChar (c : Char) : Bool :=
  c == ' ' || c == '\t' || c == '\n' || c == '\r' ||
  c == Char.ofNat 11 || c == Char.ofNat 12 ||
  c == Char.ofNat 0x85 || c == Char.ofNat 0xA0

/-- Go `strings.TrimSpace`: drop leading and trailing whitespace. -/
def trimSpace (s : String) : String :=
  String.mk (((s.data.dropWhile isSpaceChar).reverse.dropWhile isSpaceChar).reverse)

/-- Helper for `splitChar`: accumulate the current field (reversed) while
scanning the character list. -/
def splitCharsAux (sep : Char) : List Char → List Char → List (List Char)
  | [], acc => [acc.reverse]
  | c :: cs, acc =>
    if c == sep then acc.reverse :: splitCharsAux sep cs []
    else splitCharsAux sep cs (c :: acc)

/-- Go `strings.Split(s, sep)` for a one-character separator: the list of
fields between occurrences of `sep`, empty fields preserved. -/
def splitChar (s : String) (sep : Char) : List String :=
  (splitCharsAux sep s.data []).map String.mk

/-- Boolean prefix test on character lists. -/
def isPrefixCharsB : List Char → List Char → Bool
  | [], _ => true
  | _ :: _, [] => false
  | a :: as, b :: bs => a == b && isPrefixCharsB as bs

/-- Go `strings.HasSuffix`. -/
def hasSuffix (s suf : String) : Bool :=
  isPrefixCharsB suf.data.reverse s.data.reverse

/-- Substring search helper: does `pat` occur in the haystack? -/
def containsSub (pat : List Char) : List Char → Bool
  | [] => pat.isEmpty
  | c :: rest => isPrefixCharsB pat (c :: rest) || containsSub pat rest

/-- Go `strings.Contains`. -/
def containsSubstr (s sub : String) : Bool :=
  containsSub sub.data s.data

/-- Go `strings.ToLower` (ASCII range, the only one exercised here). -/
def toLowerStr (s : String) : String :=
  String.mk (s.data.map Char.toLower)

/-- Decimal digit list to `Nat` (most significant digit first). -/
def digitsToNat (cs : List Char) : Nat :=
  cs.foldl (fun n c => n * 10 + (c.toNat - '0'.toNat)) 0

/-- Go `len(s)` on a string: its UTF-8 byte length. -/
def utf8Len (s : String) : Nat :=
  s.data.foldl (fun n c => n + c.utf8Size) 0

/-! ### Validator (`processor/internal/validator/validator.go`) -/

/-- Go `parseInt` from `validator.go`: `strings.TrimSpace` followed by
`strconv.ParseInt(s, 10, 64)` — optional sign, decimal digits only,
rejecting the empty string and values outside the `int64` range. -/
def parseInt (s : String) : Option Int :=
  match (trimSpace s).data with
  | [] => none
  | c :: rest =>
    let signAndDigits : Bool × List Char :=
      if c == '-' then (true, rest)
      else if c == '+' then (false, rest)
      else (false, c :: rest)
    let neg := signAndDigits.1
    let ds := signAndDigits.2
    if ds.isEmpty || !(ds.all Char.isDigit) then none
    else
      let n := digitsToNat ds
      if neg then
        if n ≤ 2 ^ 63 then some (-(n : Int)) else none
      else
        if n ≤ 2 ^ 63 - 1 then some (n : Int) else none

/-- Go `validPort`: parses as `int64` and lies in `[0, 65535]`. -/
def validPort (s : String) : Bool :=
  match parseInt s with
  | some v => decide (0 ≤ v ∧ v ≤ 65535)
  | none => false

/-- Go `validByte`: parses as `int64` and lies in `[0, 255]`. -/
def validByte (s : String) : Bool :=
  match parseInt s with
  | some v => decide (0 ≤ v ∧ v ≤ 255)
  | none => false

/-- Go `validUint`: parses as `int64` and is non-negative. -/
def validUint (s : String) : Bool :=
  match parseInt s with
  | some v => decide (0 ≤ v)
  | none => false

/-- Decimal literal (optional sign, digits, at most one dot, at least one
digit) valued exactly as a rational.  This models the fragment of Go
`strconv.ParseFloat` that flow timestamps exercise; exponent, hexadecimal,
infinity and NaN spellings are outside the modelled fragment, and the
parsed value is taken exactly rather than rounded to binary64. -/
def parseDecimal (s : String) : Option ℚ :=
  match s.data with
  | [] => none
  | c :: rest =>
    let signAndDigits : Bool × List Char :=
      if c == '-' then (true, rest)
      else if c == '+' then (false, rest)
      else (false, c :: rest)
    let neg := signAndDigits.1
    let ds := signAndDigits.2
    match splitCharsAux '.' ds [] with
    | [ip] =>
      if ip.isEmpty || !(ip.all Char.isDigit) then none
      else
        let num : Nat := digitsToNat ip
        some (mkRat (if neg then -(num : Int) else (num : Int)) 1)
    | [ip, fp] =>
      if (ip.isEmpty && fp.isEmpty) || !(ip.all Char.isDigit) || !(fp.all Char.isDigit) then none
      else
        let num : Nat := digitsToNat ip * 10 ^ fp.length + digitsToNat fp
        some (mkRat (if neg then -(num : Int) else (num : Int)) (10 ^ fp.length))
    | _ => none

/-- Go `parseEpochSeconds`: `strings.TrimSpace`, `strconv.ParseFloat`,
then reject parse failures and negative values. -/
def parseEpochSeconds (s : String) : Option ℚ :=
  match parseDecimal (trimSpace s) with
  | none => none
  | some v => if v < 0 then none else some v

/-- One dotted-quad component for `isIPv4`: one to three decimal digits,
value at most 255, no leading zero (Go ≥ 1.17 `net.ParseIP` rules). -/
def isIPv4Octet (cs : List Char) : Bool :=
  !cs.isEmpty && cs.length ≤ 3 && cs.all Char.isDigit &&
  (cs.length == 1 || !(cs.headD ' ' == '0')) && digitsToNat cs ≤ 255

/-- Go `net.ParseIP(s)` followed by `To4() != nil`: a dotted-quad IPv4
address.  (`To4` is also non-nil for IPv4-mapped IPv6 spellings such as
`::ffff:1.2.3.4`; those contain `:` and are outside the modelled
fragment, which covers every address the flow records carry.) -/
def isIPv4 (s : String) : Bool :=
  if s.data.contains ':' then false
  else
    match splitCharsAux '.' s.data [] with
    | [a, b, c, d] => isIPv4Octet a && isIPv4Octet b && isIPv4Octet c && isIPv4Octet d
    | _ => false

/-- Body of `ValidateLine` once the line has split into exactly 11
fields, in the source's check order: IPs, ports, flag/protocol/ToS bytes,
timestamps, counts — first failure wins. -/
def validateFields (f0 f1 f2 f3 f4 f5 f6 f7 f8 f9 f10 : String) (nowNs : Nat) : Bool × String :=
  if !(isIPv4 (trimSpace f0)) then (false, "SRC_IP is not valid")
  else if !(isIPv4 (trimSpace f1)) then (false, "DST_IP is not valid")
  else if !(validPort f2) then (false, "SRC_PORT is not valid")
  else if !(validPort f3) then (false, "DST_PORT is not valid")
  else if !(validByte f4) then (false, "TCP_FLAGS is not valid")
  else if !(validByte f5) then (false, "PROTOCOL is not valid")
  else if !(validByte f6) then (false, "TOS is not valid")
  else
    match parseEpochSeconds f7 with
    | none => (false, "TIMESTAMP_MIN is not valid")
    | some tmin =>
      match parseEpochSeconds f8 with
      | none => (false, "TIMESTAMP_MAX is not valid")
      | some tmax =>
        if tmin > tmax then (false, "TIMESTAMP_MAX is not valid")
        else if tmax > mkRat (nowNs : Int) 1000000000 then (false, "TIMESTAMP_MAX is not valid")
        else if !(validUint f9) then (false, "PACKETS is not valid")
        else if !(validUint f10) then (false, "BYTES is not valid")
        else (true, "")

/-- Go `ValidateLine(line, now)`: split on commas, require exactly 11
columns, then run the field checks.  `nowNs` is `now.UnixNano()`; the
comparison against `float64(now.UnixNano())/1e9` is modelled as the exact
rational `nowNs / 1e9`. -/
def ValidateLine (line : String) (nowNs : Nat) : Bool × String :=
  match splitChar line ',' with
  | [f0, f1, f2, f3, f4, f5, f6, f7, f8, f9, f10] =>
    validateFields f0 f1 f2 f3 f4 f5 f6 f7 f8 f9 f10 nowNs
  | _ => (false, "column count != 11")

/-! ### Ingest loop (`main.go`, `runIngest`) and the error-line file
(`errorlog.LineWriter`) -/

/-- `model.DataLine`: one line of flow data handed through the channel. -/
structure DataLine where
  Line : String
  IsHeader : Bool
deriving Repr, DecidableEq

/-- Go `isHeaderLine`: case-insensitive substring match against the fixed
keyword list. -/
def isHeaderLine (line : String) : Bool :=
  let lower := toLowerStr line
  ["flowstart", "timestamp",
   "src_ip", "dst_ip", "src_host", "dst_host",
   "src_port", "dst_port", "protocol", "proto", "tos",
   "tcp_flags", "timestamp_min", "timestamp_max",
   "packet", "packets", "octet", "bytes"].any
    (fun kw => containsSubstr lower kw)

/-- The mutable state of `runIngest`: the processed-data-line counter
`lineCount`, the header flag, the records so far appended to
`error/errorline.csv` (each `(number, raw line, reason)`, the file having
been opened with `O_APPEND` and never truncated), and the lines forwarded
into the bounded channel.  The channel is modelled in its blocking
(`chanTimeout ≤ 0`) configuration; the status reporter, DNS counters and
debug logging have no effect on this state and are not modelled. -/
structure IngestState where
  lineCount : Nat
  headerProcessed : Bool
  errRecords : List (Nat × String × String)
  chan : List String
deriving Repr, DecidableEq

/-- One iteration of the `runIngest` loop on a single input line:
empty lines are skipped without counting; before the header is seen, a
line matching `isHeaderLine` is consumed (not forwarded, not counted);
an invalid line is appended to the error file as
`(lineCount+1, line, reason)` and counted; a valid line is forwarded and
counted. -/
def ingestLine (nowNs : Nat) (st : IngestState) (line : String) : IngestState :=
  if line.data.isEmpty then st
  else if !st.headerProcessed && isHeaderLine line then
    { st with headerProcessed := true }
  else
    let r := ValidateLine line nowNs
    if r.1 then
      { st with chan := st.chan ++ [line], lineCount := st.lineCount + 1 }
    else
      { st with errRecords := st.errRecords ++ [(st.lineCount + 1, line, r.2)],
                lineCount := st.lineCount + 1 }

/-- `runIngest` over a finite input stream, starting from an error file
that already holds `errFile0` (append mode: prior contents are kept). -/
def runIngest (nowNs : Nat) (errFile0 : List (Nat × String × String))
    (input : List String) : IngestState :=
  input.foldl (ingestLine nowNs) ⟨0, false, errFile0, []⟩

/-! ### BatchWriter (`processor/internal/batchwriter/batch_writer.go`)

The source writes through `bufio.Writer` -> `gzip.Writer` -> `os.File`,
and both of the first two layers buffer in-process.  The buffering is
modelled with three byte strings per active archive, all in raw
(decompressed) view: `pending` (bytes still in the `bufio` buffer),
`flushed` (bytes that have left the `bufio` buffer and entered the gzip
stream), and `filed` (bytes whose compressed form has already been
written through to the OS file).  The gzip/flate compressor retains
`flushed` minus `filed` in its own in-process buffer; only closing the
gzip stream (`closeAndRenameCurrentFile`) forces it out, so `filed`
catches up to `flushed` there and nowhere else — `bufio.Flush` alone
moves nothing to the file.  (For data larger than the compressor's
block buffer, flate emits some compressed blocks early, so `filed` is a
conservative lower bound; for the small inputs examined here it is
exact.)  A completed archive is recorded as
`(final path, decompressed content)`; rotation and close publish
`flushed`, matching the source, whose call sites flush the `bufio`
buffer first and whose gzip close drains the compressor.
`fmtTs` stands for `time.Now().Format("20060102_150405")`. -/

structure BatchWriter where
  dataDir : String
  filePrefix : String
  rotateIntervalSec : Nat
  rotateSizeMB : Nat
  fileOpen : Bool
  currentPath : String
  flushed : String
  pending : String
  writtenBytes : Nat
  startTime : Nat
  fileIndex : Nat
  closed : Bool
  archives : List (String × String)
  filed : String
deriving Repr, DecidableEq

/-- Go `NewBatchWriter`. -/
def NewBatchWriter (dataDir filePrefix : String) (rotateIntervalSec rotateSizeMB : Nat) : BatchWriter :=
  { dataDir := dataDir, filePrefix := filePrefix,
    rotateIntervalSec := rotateIntervalSec, rotateSizeMB := rotateSizeMB,
    fileOpen := false, currentPath := "", flushed := "", pending := "",
    writtenBytes := 0, startTime := 0, fileIndex := 0, closed := false,
    archives := [], filed := "" }

/-- Go `fmt.Sprintf("%03d", n)` for a non-negative index. -/
def pad3 (n : Nat) : String :=
  if n < 10 then "00" ++ toString n
  else if n < 100 then "0" ++ toString n
  else toString n

/-- Go `filepath.Join(dir, name)` for the clean paths used here. -/
def joinPath (dir name : String) : String :=
  if dir == "" then name else dir ++ "/" ++ name

/-- Go `BatchWriter.rotateFile`: open a fresh in-progress archive named
`prefix + timestamp + "_" + %03d index + ".part"`, reset the raw byte
counter and the creation time, and advance the sequence index. -/
def BatchWriter.rotateFile (fmtTs : Nat → String) (bw : BatchWriter) (now : Nat) : BatchWriter :=
  let filename := bw.filePrefix ++ fmtTs now ++ "_" ++ pad3 bw.fileIndex ++ ".part"
  { bw with currentPath := joinPath bw.dataDir filename,
            fileOpen := true, flushed := "", pending := "", filed := "",
            startTime := now, writtenBytes := 0, fileIndex := bw.fileIndex + 1 }

/-- Go `BatchWriter.shouldRotate`: elapsed time at least the configured
interval, or raw bytes at least the configured MiB threshold. -/
def BatchWriter.shouldRotate (bw : BatchWriter) (now : Nat) : Bool :=
  decide (bw.rotateIntervalSec * 1000000000 ≤ now - bw.startTime) ||
  decide (bw.rotateSizeMB * 1024 * 1024 ≤ bw.writtenBytes)

/-- `bw.buffer.Flush()`: move the `bufio` contents into the gzip
stream.  The compressor keeps buffering in-process, so `filed` — what
has actually been written to the OS file — does not advance. -/
def BatchWriter.bufFlush (bw : BatchWriter) : BatchWriter :=
  { bw with flushed := bw.flushed ++ bw.pending, pending := "" }

/-- Go `BatchWriter.closeAndRenameCurrentFile`: close the gzip stream
(draining the compressor's buffer to the file, so `filed` catches up to
`flushed`), close the file, and rename `…​.part` to `…​.csv.gz` (appending
`.csv.gz` when the current name lacks the `.part` suffix), publishing
the archive.  Bytes still in the `bufio` buffer are not part of the
file; both call sites flush first. -/
def BatchWriter.closeAndRenameCurrentFile (bw : BatchWriter) : BatchWriter :=
  let closedFile := { bw with fileOpen := false, filed := bw.flushed }
  if bw.currentPath == "" then closedFile
  else
    let finalPath :=
      if hasSuffix bw.currentPath ".part" then
        String.mk (bw.currentPath.data.take (bw.currentPath.data.length - 5)) ++ ".csv.gz"
      else bw.currentPath ++ ".csv.gz"
    { closedFile with archives := bw.archives ++ [(finalPath, bw.flushed)] }

/-- Go `BatchWriter.flushAndRotate`: flush, publish, reopen. -/
def BatchWriter.flushAndRotate (fmtTs : Nat → String) (bw : BatchWriter) (now : Nat) : BatchWriter :=
  BatchWriter.rotateFile fmtTs (BatchWriter.closeAndRenameCurrentFile bw.bufFlush) now

/-- The write loop inside `WriteBatch`: append `line + "\n"` to the
buffer and add `len(line + "\n")` raw bytes to the counter. -/
def BatchWriter.writeLines (bw : BatchWriter) (lines : List DataLine) : BatchWriter :=
  lines.foldl
    (fun b dl =>
      { b with pending := b.pending ++ dl.Line ++ "\n",
               writtenBytes := b.writtenBytes + (utf8Len dl.Line + 1) })
    bw

/-- Go `BatchWriter.WriteBatch`: error when closed; open a file if none
is open; write every line; then rotate if `shouldRotate`. -/
def BatchWriter.WriteBatch (fmtTs : Nat → String) (bw : BatchWriter) (lines : List DataLine)
    (now : Nat) : BatchWriter × Option String :=
  if bw.closed then (bw, some "batch writer is closed")
  else
    let opened := if bw.fileOpen then bw else bw.rotateFile fmtTs now
    let written := opened.writeLines lines
    if written.shouldRotate now then (written.flushAndRotate fmtTs now, none)
    else (written, none)

/-- Go `BatchWriter.Flush`: no-op when closed or never opened (`buffer ==
nil`, which in every reachable state coincides with `fileOpen = false`);
otherwise it runs only `bw.buffer.Flush()`, emptying the `bufio` buffer
into the gzip stream.  It never calls `gzipWriter.Flush`, so the
compressor's in-process buffer is not forced to the OS, and it never
rotates. -/
def BatchWriter.Flush (bw : BatchWriter) : BatchWriter × Option String :=
  if bw.closed || !bw.fileOpen then (bw, none) else (bw.bufFlush, none)

/-- Go `BatchWriter.Close`: idempotent; on first call mark closed, flush
the buffer if one exists, and close-and-rename the current file. -/
def BatchWriter.Close (bw : BatchWriter) : BatchWriter × Option String :=
  if bw.closed then (bw, none)
  else
    let marked := { bw with closed := true }
    let flushedOut := if marked.fileOpen then marked.bufFlush else marked
    (flushedOut.closeAndRenameCurrentFile, none)

/-- A finite sequence of `WriteBatch` calls, all at instant `now`. -/
def BatchWriter.runBatches (fmtTs : Nat → String) (bw : BatchWriter)
    (batches : List (List DataLine)) (now : Nat) : BatchWriter :=
  batches.foldl (fun b ls => (BatchWriter.WriteBatch fmtTs b ls now).1) bw

/-- Raw (uncompressed) byte count of a batch: each line's byte length
plus one for the newline. -/
def rawBytes (ls : List DataLine) : Nat :=
  (ls.map (fun dl => utf8Len dl.Line + 1)).sum

/-- The byte stream a batch contributes: every line followed by a
newline, in order. -/
def concatNL (ls : List DataLine) : String :=
  ls.foldr (fun dl acc => dl.Line ++ "\n" ++ acc) ""

/-- Concatenation of completed archives' decompressed contents in
creation order. -/
def archivesContent (l : List (String × String)) : String :=
  l.foldr (fun a acc => a.2 ++ acc) ""

/-- A line of 1048575 bytes: together with its newline it makes exactly
one MiB of raw input, the smallest non-zero size threshold. -/
def bigLine : String :=
  String.mk (List.replicate 1048575 'a')

/-! ### Uploader (`processor/internal/uploader/uploader.go`)

The local data directory and the single remote FTP directory are modelled
as named listings; only names and byte sizes drive the per-file protocol,
so entries carry those.  Each fallible transport or filesystem step of
`uploadFile` takes its outcome from an `UploadEnv` (all-true, `storSize =
none` being the fault-free run); context cancellation is not modelled (a
cycle runs to completion). -/

/-- One entry of a directory listing: name, byte size, directory flag. -/
structure FsEntry where
  name : String
  size : Nat
  isDir : Bool
deriving Repr, DecidableEq

/-- The filesystem state the uploader acts on: the local data directory
and the remote FTP directory (name to byte size). -/
structure World where
  localFiles : List FsEntry
  remote : List (String × Nat)
deriving Repr, DecidableEq

/-- `os.Stat` on a directory entry by name. -/
def lookupLocal (name : String) : List FsEntry → Option FsEntry
  | [] => none
  | e :: rest => if e.name == name then some e else lookupLocal name rest

/-- `os.Remove` of a local file. -/
def removeLocal (w : World) (name : String) : World :=
  { w with localFiles := w.localFiles.filter (fun e => !(e.name == name)) }

/-- `conn.Delete` of a remote path. -/
def removeRemote (w : World) (name : String) : World :=
  { w with remote := w.remote.filter (fun e => !(e.1 == name)) }

/-- A completed `conn.Stor`/`conn.Rename` target: the remote directory
now holds `name` with `size` bytes. -/
def setRemote (w : World) (name : String) (size : Nat) : World :=
  { w with remote := (removeRemote w name).remote ++ [(name, size)] }

/-- `conn.FileSize`: succeeds exactly when the remote file exists. -/
def remoteSize (w : World) (name : String) : Option Nat :=
  List.lookup name w.remote

/-- Fault injection for one `uploadFile` call: whether each fallible step
succeeds, and (`storSize`) the size the remote temporary file ends up
with when `Stor` succeeds (`none` = the transfer is complete and exact,
the fault-free case). -/
structure UploadEnv where
  statOk : Bool
  dialOk : Bool
  loginOk : Bool
  ensureDirOk : Bool
  deleteFinalOk : Bool
  deleteTempOk : Bool
  openOk : Bool
  storOk : Bool
  storSize : Option Nat
  sizeCheckOk : Bool
  renameOk : Bool
  removeOk : Bool
deriving Repr, DecidableEq

/-- The fault-free environment. -/
def allOk : UploadEnv :=
  { statOk := true, dialOk := true, loginOk := true, ensureDirOk := true,
    deleteFinalOk := true, deleteTempOk := true, openOk := true,
    storOk := true, storSize := none, sizeCheckOk := true,
    renameOk := true, removeOk := true }

/-- Result of one `uploadFile` call: whether it returned `nil`, how many
`Stor` data transfers it attempted, and the resulting filesystem state. -/
structure UpResult where
  ok : Bool
  stors : Nat
  world : World
deriving Repr, DecidableEq

/-- The tail of `uploadFile` after the duplicate check: delete a leftover
remote temporary file (failure tolerated), open the local file, `Stor` to
the temporary name, re-check the remote size, and rename to the final
name.  Any failed step returns an error without touching local files. -/
def Uploader.doStor (env : UploadEnv) (w : World) (localSize : Nat)
    (remoteName tempName : String) : UpResult :=
  let afterTempClean :=
    match remoteSize w tempName with
    | some _ => if env.deleteTempOk then removeRemote w tempName else w
    | none => w
  if !env.openOk then ⟨false, 0, afterTempClean⟩
  else if !env.storOk then ⟨false, 1, afterTempClean⟩
  else
    let stored := env.storSize.getD localSize
    let afterStor := setRemote afterTempClean tempName stored
    if !env.sizeCheckOk then ⟨false, 1, afterStor⟩
    else if !(stored == localSize) then ⟨false, 1, afterStor⟩
    else if !env.renameOk then ⟨false, 1, afterStor⟩
    else ⟨true, 1, setRemote (removeRemote afterStor tempName) remoteName stored⟩

/-- Go `Uploader.uploadFile`: stat the local file, connect, log in,
ensure the remote directory, then run the per-file protocol — skip when a
same-name same-size remote file exists, delete a same-name different-size
remote file (failure tolerated) before uploading afresh. -/
def Uploader.uploadFile (env : UploadEnv) (w : World) (filename : String) : UpResult :=
  match lookupLocal filename w.localFiles with
  | none => ⟨false, 0, w⟩
  | some entry =>
    if !env.statOk then ⟨false, 0, w⟩
    else if !env.dialOk then ⟨false, 0, w⟩
    else if !env.loginOk then ⟨false, 0, w⟩
    else if !env.ensureDirOk then ⟨false, 0, w⟩
    else
      let localSize := entry.size
      let remoteName := filename
      let tempName := filename ++ ".tmp"
      match remoteSize w remoteName with
      | some rs =>
        if rs == localSize then ⟨true, 0, w⟩
        else
          let cleaned := if env.deleteFinalOk then removeRemote w remoteName else w
          Uploader.doStor env cleaned localSize remoteName tempName
      | none => Uploader.doStor env w localSize remoteName tempName

/-- Go `Uploader.cleanupRemoteTempFiles`: list the remote directory and
delete every plain file whose name ends in `.tmp` (when the cycle's
cleanup connection works; failures are logged and tolerated). -/
def Uploader.cleanupRemoteTempFiles (ok : Bool) (w : World) : World :=
  if ok then { w with remote := w.remote.filter (fun e => !(hasSuffix e.1 ".tmp")) } else w

/-- The names one scan selects: non-directory entries ending `.csv.gz`. -/
def Uploader.scanNames (w : World) : List String :=
  (w.localFiles.filter (fun e => !e.isDir && hasSuffix e.name ".csv.gz")).map FsEntry.name

/-- Outcome of one scan cycle: `Stor` transfers performed, local files
deleted, the per-file attempt log in scan order (`(name, returned nil)`),
and the final filesystem state. -/
structure ScanResult where
  stors : Nat
  localDeletes : Nat
  attempts : List (String × Bool)
  world : World
deriving Repr, DecidableEq

/-- One iteration of the upload loop in `scanAndUpload`: attempt the
file; on success remove it locally (an `os.Remove` failure only logs);
on failure leave it in place and continue with the next file. -/
def Uploader.uploadStep (envf : String → UploadEnv) (acc : ScanResult) (filename : String) :
    ScanResult :=
  let r := Uploader.uploadFile (envf filename) acc.world filename
  if r.ok then
    let removed := if (envf filename).removeOk then removeLocal r.world filename else r.world
    { stors := acc.stors + r.stors,
      localDeletes := acc.localDeletes + (if (envf filename).removeOk then 1 else 0),
      attempts := acc.attempts ++ [(filename, true)],
      world := removed }
  else
    { stors := acc.stors + r.stors,
      localDeletes := acc.localDeletes,
      attempts := acc.attempts ++ [(filename, false)],
      world := r.world }

/-- Go `Uploader.scanAndUpload`: clean remote temporaries, list the local
directory, select non-directory `.csv.gz` entries, and attempt each in
turn. -/
def Uploader.scanAndUpload (envf : String → UploadEnv) (cleanupOk : Bool) (w : World) :
    ScanResult :=
  let cleaned := Uploader.cleanupRemoteTempFiles cleanupOk w
  (Uploader.scanNames cleaned).foldl (Uploader.uploadStep envf) ⟨0, 0, [], cleaned⟩

/-- A concrete writer state used to examine `Flush`: a fresh writer
(interval 300 s, threshold 64 MiB) whose first `WriteBatch` at time 5
opened a file and wrote the single line "x" (2 raw bytes with the
newline), without rotating. -/
def flushProbe : BatchWriter :=
  (BatchWriter.WriteBatch (fun _ => "20240101_000000")
    (NewBatchWriter "data" "pf" 300 64) [⟨"x", false⟩] 5).1

/-! ### General lemmas about the embedded operations -/

theorem closeAndRename_closed (bw : BatchWriter) :
    bw.closeAndRenameCurrentFile.closed = bw.closed := by
  unfold BatchWriter.closeAndRenameCurrentFile
  split <;> rfl

theorem bufFlush_closed (bw : BatchWriter) : bw.bufFlush.closed = bw.closed := rfl

theorem close_sets_closed (bw : BatchWriter) : (bw.Close).1.closed = true := by
  unfold BatchWriter.Close
  by_cases h : bw.closed
  · simp [h]
  · simp only [h, if_false, Bool.false_eq_true]
    rw [closeAndRename_closed]
    split <;> rfl

/-- C10: after `Close` returns, the writer is permanently closed — the
`closed` flag is set; any later `WriteBatch` returns an error with the
state untouched (no bytes written, no file created); any later `Close`
returns `nil` and performs no further flush, close or rename (the state
is untouched). -/
theorem writeBatch_on_closed (fmtTs : Nat → String) (b : BatchWriter)
    (lines : List DataLine) (now : Nat) (h : b.closed = true) :
    BatchWriter.WriteBatch fmtTs b lines now = (b, some "batch writer is closed") := by
  unfold BatchWriter.WriteBatch
  simp [h]

theorem close_on_closed (b : BatchWriter) (h : b.closed = true) : b.Close = (b, none) := by
  unfold BatchWriter.Close
  simp [h]

theorem close_is_permanent (bw : BatchWriter) (fmtTs : Nat → String)
    (lines : List DataLine) (now : Nat) :
    (bw.Close).1.closed = true ∧
    BatchWriter.WriteBatch fmtTs (bw.Close).1 lines now
      = ((bw.Close).1, some "batch writer is closed") ∧
    ((bw.Close).1.Close) = ((bw.Close).1, none) :=
  ⟨close_sets_closed bw,
   writeBatch_on_closed fmtTs (bw.Close).1 lines now (close_sets_closed bw),
   close_on_closed (bw.Close).1 (close_sets_closed bw)⟩

/-- C8: refuted.  The claim says `Flush` forces every buffered byte of
the active archive out to the operating system, leaving no previously
written byte in any in-process buffer.  In the code `Flush` runs only
`bw.buffer.Flush()`: the bytes move from the `bufio` layer into the
still-buffering `gzip.Writer`, whose own `Flush` is never called, so
they remain in the compressor's in-process buffer and none reaches the
OS file.  Concretely, on a fresh writer holding the single written line
"x" (2 raw bytes), `Flush` returns `nil` and does not rotate — path,
sequence index, creation time, raw byte counter and archive list are
unchanged — and it does empty the `bufio` buffer (`pending` becomes
empty, `flushed` becomes "x\n"), but the bytes written through to the
OS file stay empty (`filed = ""`): every written byte is still in an
in-process buffer, contradicting the claim. -/
theorem flush_leaves_gzip_buffered :
    flushProbe.fileOpen = true ∧ flushProbe.closed = false ∧
    flushProbe.writtenBytes = 2 ∧ flushProbe.pending = "x\n" ∧
    (flushProbe.Flush).2 = none ∧
    (flushProbe.Flush).1.pending = "" ∧
    (flushProbe.Flush).1.flushed = "x\n" ∧
    (flushProbe.Flush).1.filed = "" ∧
    (flushProbe.Flush).1.currentPath = flushProbe.currentPath ∧
    (flushProbe.Flush).1.fileIndex = flushProbe.fileIndex ∧
    (flushProbe.Flush).1.startTime = flushProbe.startTime ∧
    (flushProbe.Flush).1.writtenBytes = flushProbe.writtenBytes ∧
    (flushProbe.Flush).1.archives = flushProbe.archives := by
  decide


theorem writeLines_fields (bw : BatchWriter) (ls : List DataLine) :
    (bw.writeLines ls).dataDir = bw.dataDir ∧
    (bw.writeLines ls).filePrefix = bw.filePrefix ∧
    (bw.writeLines ls).rotateIntervalSec = bw.rotateIntervalSec ∧
    (bw.writeLines ls).rotateSizeMB = bw.rotateSizeMB ∧
    (bw.writeLines ls).fileOpen = bw.fileOpen ∧
    (bw.writeLines ls).currentPath = bw.currentPath ∧
    (bw.writeLines ls).startTime = bw.startTime ∧
    (bw.writeLines ls).fileIndex = bw.fileIndex ∧
    (bw.writeLines ls).closed = bw.closed ∧
    (bw.writeLines ls).archives = bw.archives ∧
    (bw.writeLines ls).flushed = bw.flushed := by
  induction ls generalizing bw with
  | nil => exact ⟨rfl, rfl, rfl, rfl, rfl, rfl, rfl, rfl, rfl, rfl, rfl⟩
  | cons dl tl ih => exact ih _

theorem writeLines_writtenBytes (bw : BatchWriter) (ls : List DataLine) :
    (bw.writeLines ls).writtenBytes = bw.writtenBytes + rawBytes ls := by
  induction ls generalizing bw with
  | nil => simp [BatchWriter.writeLines, rawBytes]
  | cons dl tl ih =>
    have h := ih { bw with pending := bw.pending ++ dl.Line ++ "\n",
                           writtenBytes := bw.writtenBytes + (utf8Len dl.Line + 1) }
    simp only [BatchWriter.writeLines, List.foldl_cons] at h ⊢
    rw [h]
    simp [rawBytes]
    omega

theorem rotateFile_fields (fmtTs : Nat → String) (bw : BatchWriter) (now : Nat) :
    (bw.rotateFile fmtTs now).writtenBytes = 0 ∧
    (bw.rotateFile fmtTs now).startTime = now ∧
    (bw.rotateFile fmtTs now).fileOpen = true ∧
    (bw.rotateFile fmtTs now).archives = bw.archives ∧
    (bw.rotateFile fmtTs now).rotateIntervalSec = bw.rotateIntervalSec ∧
    (bw.rotateFile fmtTs now).rotateSizeMB = bw.rotateSizeMB ∧
    (bw.rotateFile fmtTs now).closed = bw.closed ∧
    (bw.rotateFile fmtTs now).flushed = "" ∧
    (bw.rotateFile fmtTs now).pending = "" ∧
    (bw.rotateFile fmtTs now).fileIndex = bw.fileIndex + 1 :=
  ⟨rfl, rfl, rfl, rfl, rfl, rfl, rfl, rfl, rfl, rfl⟩

theorem strAppend_ne_empty_right (s t : String) (h : t ≠ "") : s ++ t ≠ "" := by
  intro hcontra
  apply h
  have hd : (s ++ t).data = s.data ++ t.data := String.data_append ..
  have : s.data ++ t.data = [] := by rw [← hd, hcontra]
  have ht : t.data = [] := (List.append_eq_nil.mp this).2
  cases t with
  | mk d => cases ht; rfl

theorem rotateFile_currentPath_ne (fmtTs : Nat → String) (bw : BatchWriter) (now : Nat) :
    (bw.rotateFile fmtTs now).currentPath ≠ "" := by
  have hpart : (".part" : String) ≠ "" := by decide
  have hfile : bw.filePrefix ++ fmtTs now ++ "_" ++ pad3 bw.fileIndex ++ ".part" ≠ "" :=
    strAppend_ne_empty_right _ _ hpart
  show joinPath bw.dataDir _ ≠ ""
  unfold joinPath
  split
  · exact hfile
  · exact strAppend_ne_empty_right _ _ hfile

theorem closeAndRename_archives_len (bw : BatchWriter) (h : bw.currentPath ≠ "") :
    (bw.closeAndRenameCurrentFile).archives.length = bw.archives.length + 1 := by
  unfold BatchWriter.closeAndRenameCurrentFile
  have hb : (bw.currentPath == "") = false := by
    simp [h]
  simp [hb]

theorem bufFlush_fields (bw : BatchWriter) :
    bw.bufFlush.currentPath = bw.currentPath ∧
    bw.bufFlush.archives = bw.archives ∧
    bw.bufFlush.fileOpen = bw.fileOpen ∧
    bw.bufFlush.flushed = bw.flushed ++ bw.pending ∧
    bw.bufFlush.pending = "" :=
  ⟨rfl, rfl, rfl, rfl, rfl⟩

theorem flushAndRotate_archives_len (fmtTs : Nat → String) (bw : BatchWriter) (now : Nat)
    (h : bw.currentPath ≠ "") :
    (bw.flushAndRotate fmtTs now).archives.length = bw.archives.length + 1 := by
  unfold BatchWriter.flushAndRotate
  have h1 : (BatchWriter.rotateFile fmtTs (bw.bufFlush.closeAndRenameCurrentFile) now).archives
      = bw.bufFlush.closeAndRenameCurrentFile.archives := rfl
  rw [h1]
  have h2 : bw.bufFlush.currentPath ≠ "" := h
  rw [closeAndRename_archives_len _ h2]
  rfl

/-- C4: after every (non-erroring) `WriteBatch` call, rotation is
evaluated: exactly one archive is published iff the elapsed time since
the active archive's creation is at least the configured interval, or
the accumulated raw byte count is at least the configured MiB threshold;
the raw counter accumulates each line's byte length plus one per batch,
and is reset to zero whenever a new active archive is opened
(`rotateFile`).  `opened`/`written` name the intermediate states of the
call: after the open-if-absent step and after the write loop. -/
theorem writeBatch_rotation (fmtTs : Nat → String) (bw : BatchWriter)
    (lines : List DataLine) (now : Nat)
    (hclosed : bw.closed = false)
    (hpath : bw.fileOpen = true → bw.currentPath ≠ "") :
    (BatchWriter.WriteBatch fmtTs bw lines now).2 = none ∧
    ((if bw.fileOpen then bw else bw.rotateFile fmtTs now).writeLines lines).writtenBytes
      = (if bw.fileOpen then bw else bw.rotateFile fmtTs now).writtenBytes + rawBytes lines ∧
    (bw.rotateFile fmtTs now).writtenBytes = 0 ∧
    (BatchWriter.WriteBatch fmtTs bw lines now).1.archives.length
      = bw.archives.length +
        (if bw.rotateIntervalSec * 1000000000
              ≤ now - ((if bw.fileOpen then bw else bw.rotateFile fmtTs now).writeLines lines).startTime
            ∨ bw.rotateSizeMB * 1024 * 1024
              ≤ ((if bw.fileOpen then bw else bw.rotateFile fmtTs now).writeLines lines).writtenBytes
         then 1 else 0) := by
  set opened := if bw.fileOpen then bw else bw.rotateFile fmtTs now with hopened
  set written := opened.writeLines lines with hwritten
  have hWB : BatchWriter.WriteBatch fmtTs bw lines now
      = if written.shouldRotate now then (written.flushAndRotate fmtTs now, none)
        else (written, none) := by
    unfold BatchWriter.WriteBatch
    rw [hclosed]
    simp only [Bool.false_eq_true, if_false]
  have hcfg1 : written.rotateIntervalSec = bw.rotateIntervalSec := by
    rw [hwritten, (writeLines_fields opened lines).2.2.1, hopened]
    split
    · rfl
    · exact (rotateFile_fields fmtTs bw now).2.2.2.2.1
  have hcfg2 : written.rotateSizeMB = bw.rotateSizeMB := by
    rw [hwritten, (writeLines_fields opened lines).2.2.2.1, hopened]
    split
    · rfl
    · exact (rotateFile_fields fmtTs bw now).2.2.2.2.2.1
  have harch : written.archives = bw.archives := by
    rw [hwritten, (writeLines_fields opened lines).2.2.2.2.2.2.2.2.2.1, hopened]
    split
    · rfl
    · exact (rotateFile_fields fmtTs bw now).2.2.2.1
  have hcp : written.currentPath ≠ "" := by
    rw [hwritten, (writeLines_fields opened lines).2.2.2.2.2.1, hopened]
    split
    · next hfo => exact hpath hfo
    · exact rotateFile_currentPath_ne fmtTs bw now
  have hcond : written.shouldRotate now
      = (decide (bw.rotateIntervalSec * 1000000000 ≤ now - written.startTime)
         || decide (bw.rotateSizeMB * 1024 * 1024 ≤ written.writtenBytes)) := by
    unfold BatchWriter.shouldRotate
    rw [hcfg1, hcfg2]
  refine ⟨?_, writeLines_writtenBytes opened lines, (rotateFile_fields fmtTs bw now).1, ?_⟩
  · rw [hWB]
    split <;> rfl
  · rw [hWB]
    by_cases hrot : written.shouldRotate now = true
    · rw [hrot]
      simp only [if_true]
      have h1 : (written.flushAndRotate fmtTs now).archives.length
          = written.archives.length + 1 := flushAndRotate_archives_len fmtTs written now hcp
      rw [h1, harch]
      have : (bw.rotateIntervalSec * 1000000000 ≤ now - written.startTime
              ∨ bw.rotateSizeMB * 1024 * 1024 ≤ written.writtenBytes) := by
        rw [hcond] at hrot
        rcases Bool.or_eq_true_iff.mp hrot with h | h
        · exact Or.inl (of_decide_eq_true h)
        · exact Or.inr (of_decide_eq_true h)
      rw [if_pos this]
    · rw [Bool.not_eq_true] at hrot
      rw [hrot]
      simp only [Bool.false_eq_true, if_false]
      have : ¬(bw.rotateIntervalSec * 1000000000 ≤ now - written.startTime
              ∨ bw.rotateSizeMB * 1024 * 1024 ≤ written.writtenBytes) := by
        rw [hcond] at hrot
        rcases Bool.or_eq_false_iff.mp hrot with ⟨h1, h2⟩
        rintro (h | h)
        · exact absurd (decide_eq_true h) (by rw [h1]; exact Bool.false_ne_true)
        · exact absurd (decide_eq_true h) (by rw [h2]; exact Bool.false_ne_true)
      rw [if_neg this, Nat.add_zero, harch]

/-- Witness for C4: a fresh writer, one two-line batch. -/
theorem writeBatch_rotation_witness :
    ((NewBatchWriter "d" "p" 60 1).closed = false ∧
     ((NewBatchWriter "d" "p" 60 1).fileOpen = true → (NewBatchWriter "d" "p" 60 1).currentPath ≠ "")) ∧
    ((BatchWriter.WriteBatch (fun _ => "20240101_000000") (NewBatchWriter "d" "p" 60 1)
        [⟨"x", false⟩, ⟨"yz", false⟩] 7).2 = none ∧
     (((if (NewBatchWriter "d" "p" 60 1).fileOpen then NewBatchWriter "d" "p" 60 1
        else (NewBatchWriter "d" "p" 60 1).rotateFile (fun _ => "20240101_000000") 7).writeLines
          [⟨"x", false⟩, ⟨"yz", false⟩]).writtenBytes
       = (if (NewBatchWriter "d" "p" 60 1).fileOpen then NewBatchWriter "d" "p" 60 1
          else (NewBatchWriter "d" "p" 60 1).rotateFile (fun _ => "20240101_000000") 7).writtenBytes
         + rawBytes [⟨"x", false⟩, ⟨"yz", false⟩]) ∧
     ((NewBatchWriter "d" "p" 60 1).rotateFile (fun _ => "20240101_000000") 7).writtenBytes = 0 ∧
     (BatchWriter.WriteBatch (fun _ => "20240101_000000") (NewBatchWriter "d" "p" 60 1)
        [⟨"x", false⟩, ⟨"yz", false⟩] 7).1.archives.length
       = (NewBatchWriter "d" "p" 60 1).archives.length +
         (if (NewBatchWriter "d" "p" 60 1).rotateIntervalSec * 1000000000
               ≤ 7 - (((if (NewBatchWriter "d" "p" 60 1).fileOpen then NewBatchWriter "d" "p" 60 1
                        else (NewBatchWriter "d" "p" 60 1).rotateFile (fun _ => "20240101_000000") 7).writeLines
                         [⟨"x", false⟩, ⟨"yz", false⟩]).startTime)
             ∨ (NewBatchWriter "d" "p" 60 1).rotateSizeMB * 1024 * 1024
               ≤ ((if (NewBatchWriter "d" "p" 60 1).fileOpen then NewBatchWriter "d" "p" 60 1
                    else (NewBatchWriter "d" "p" 60 1).rotateFile (fun _ => "20240101_000000") 7).writeLines
                     [⟨"x", false⟩, ⟨"yz", false⟩]).writtenBytes
          then 1 else 0)) :=
  ⟨⟨rfl, fun h => absurd h (by decide)⟩,
   writeBatch_rotation (fun _ => "20240101_000000") (NewBatchWriter "d" "p" 60 1)
     [⟨"x", false⟩, ⟨"yz", false⟩] 7 rfl (fun h => absurd h (by decide))⟩

/-- C6: `ValidateLine` applies its checks in the source's fixed order and
returns the first failing check's reason: any line whose comma-split
field count is not 11 is rejected with the column-count reason no matter
what the fields hold; an 11-field line failing the first IP check gets
the IP reason regardless of the later fields; and an 11-field line
passing every earlier check whose window-start exceeds its window-end is
rejected with the timestamp reason. -/
theorem validateLine_first_failure_wins :
    (∀ line nowNs, (splitChar line ',').length ≠ 11 →
      ValidateLine line nowNs = (false, "column count != 11")) ∧
    (∀ line nowNs f0 f1 f2 f3 f4 f5 f6 f7 f8 f9 f10,
      splitChar line ',' = [f0, f1, f2, f3, f4, f5, f6, f7, f8, f9, f10] →
      isIPv4 (trimSpace f0) = false →
      ValidateLine line nowNs = (false, "SRC_IP is not valid")) ∧
    (∀ line nowNs f0 f1 f2 f3 f4 f5 f6 f7 f8 f9 f10 tmin tmax,
      splitChar line ',' = [f0, f1, f2, f3, f4, f5, f6, f7, f8, f9, f10] →
      isIPv4 (trimSpace f0) = true → isIPv4 (trimSpace f1) = true →
      validPort f2 = true → validPort f3 = true →
      validByte f4 = true → validByte f5 = true → validByte f6 = true →
      parseEpochSeconds f7 = some tmin → parseEpochSeconds f8 = some tmax →
      tmax < tmin →
      ValidateLine line nowNs = (false, "TIMESTAMP_MAX is not valid")) := by
  refine ⟨?_, ?_, ?_⟩
  · intro line nowNs hne
    unfold ValidateLine
    revert hne
    generalize splitChar line ',' = l
    intro hne
    rcases l with _ | ⟨a, _ | ⟨b, _ | ⟨c, _ | ⟨d, _ | ⟨e, _ | ⟨f, _ | ⟨g, _ | ⟨h1, _ |
      ⟨i, _ | ⟨j, _ | ⟨k, rest⟩⟩⟩⟩⟩⟩⟩⟩⟩⟩⟩ <;>
      first
        | rfl
        | (cases rest with
           | nil => exact absurd rfl hne
           | cons x xs => rfl)
  · intro line nowNs f0 f1 f2 f3 f4 f5 f6 f7 f8 f9 f10 hsp hip
    unfold ValidateLine
    rw [hsp]
    simp [validateFields, hip]
  · intro line nowNs f0 f1 f2 f3 f4 f5 f6 f7 f8 f9 f10 tmin tmax hsp h0 h1 h2 h3 h4 h5 h6 h7 h8 hlt
    unfold ValidateLine
    rw [hsp]
    simp [validateFields, h0, h1, h2, h3, h4, h5, h6, h7, h8, hlt]

/-- Witness for C6 at concrete lines: a 2-field line, an 11-field line
with a bad source IP, and an 11-field line with swapped timestamps. -/
theorem validateLine_first_failure_wins_witness :
    ((splitChar "a,b" ',').length ≠ 11 ∧
     ValidateLine "a,b" 0 = (false, "column count != 11")) ∧
    (splitChar "999.0.0.1,10.0.0.2,1234,80,24,6,0,1700000000,1700000005,10,1500" ','
       = ["999.0.0.1", "10.0.0.2", "1234", "80", "24", "6", "0",
          "1700000000", "1700000005", "10", "1500"] ∧
     ValidateLine "999.0.0.1,10.0.0.2,1234,80,24,6,0,1700000000,1700000005,10,1500" 0
       = (false, "SRC_IP is not valid")) ∧
    (ValidateLine "10.0.0.1,10.0.0.2,1234,80,24,6,0,1700000005,1700000000,10,1500"
       1700000005000000000 = (false, "TIMESTAMP_MAX is not valid")) :=
  ⟨⟨by decide, validateLine_first_failure_wins.1 "a,b" 0 (by decide)⟩,
   ⟨by decide,
    validateLine_first_failure_wins.2.1
      "999.0.0.1,10.0.0.2,1234,80,24,6,0,1700000000,1700000005,10,1500" 0
      "999.0.0.1" "10.0.0.2" "1234" "80" "24" "6" "0" "1700000000" "1700000005" "10" "1500"
      (by decide) (by decide)⟩,
   validateLine_first_failure_wins.2.2
     "10.0.0.1,10.0.0.2,1234,80,24,6,0,1700000005,1700000000,10,1500"
     1700000005000000000
     "10.0.0.1" "10.0.0.2" "1234" "80" "24" "6" "0" "1700000005" "1700000000" "10" "1500"
     (mkRat 1700000005 1) (mkRat 1700000000 1)
     (by decide) (by decide) (by decide) (by decide) (by decide) (by decide) (by decide)
     (by decide) (by decide) (by decide) (by decide)⟩

theorem nowCompare_of_le (tmax : ℚ) (bound nowNs : Nat)
    (hb : tmax ≤ mkRat (bound : Int) 1000000000) (h : bound ≤ nowNs) :
    tmax ≤ mkRat (nowNs : Int) 1000000000 := by
  refine le_trans hb ?_
  rw [Rat.mkRat_eq_div, Rat.mkRat_eq_div]
  apply div_le_div_of_nonneg_right ?_ (by norm_num)
  exact_mod_cast h

/-- C7: an 11-field line whose IPs, ports, byte-valued fields, timestamps
(ordered and not in the future) and counters all pass their checks
validates OK; in particular the concrete flow record
`10.0.0.1,10.0.0.2,1234,80,24,6,0,1700000000,1700000005,10,1500` is
accepted at every instant from epoch-second 1700000005 on. -/
theorem validateLine_accepts_valid :
    (∀ (line : String) (nowNs : Nat) (f0 f1 f2 f3 f4 f5 f6 f7 f8 f9 f10 : String) (tmin tmax : ℚ),
      splitChar line ',' = [f0, f1, f2, f3, f4, f5, f6, f7, f8, f9, f10] →
      isIPv4 (trimSpace f0) = true → isIPv4 (trimSpace f1) = true →
      validPort f2 = true → validPort f3 = true →
      validByte f4 = true → validByte f5 = true → validByte f6 = true →
      parseEpochSeconds f7 = some tmin → parseEpochSeconds f8 = some tmax →
      tmin ≤ tmax → tmax ≤ mkRat (nowNs : Int) 1000000000 →
      validUint f9 = true → validUint f10 = true →
      ValidateLine line nowNs = (true, "")) ∧
    (∀ nowNs : Nat, 1700000005000000000 ≤ nowNs →
      ValidateLine "10.0.0.1,10.0.0.2,1234,80,24,6,0,1700000000,1700000005,10,1500" nowNs
        = (true, "")) := by
  have main : ∀ (line : String) (nowNs : Nat) (f0 f1 f2 f3 f4 f5 f6 f7 f8 f9 f10 : String) (tmin tmax : ℚ),
      splitChar line ',' = [f0, f1, f2, f3, f4, f5, f6, f7, f8, f9, f10] →
      isIPv4 (trimSpace f0) = true → isIPv4 (trimSpace f1) = true →
      validPort f2 = true → validPort f3 = true →
      validByte f4 = true → validByte f5 = true → validByte f6 = true →
      parseEpochSeconds f7 = some tmin → parseEpochSeconds f8 = some tmax →
      tmin ≤ tmax → tmax ≤ mkRat (nowNs : Int) 1000000000 →
      validUint f9 = true → validUint f10 = true →
      ValidateLine line nowNs = (true, "") := by
    intro line nowNs f0 f1 f2 f3 f4 f5 f6 f7 f8 f9 f10 tmin tmax hsp h0 h1 h2 h3 h4 h5 h6
      h7 h8 hle1 hle2 h9 h10
    unfold ValidateLine
    rw [hsp]
    simp [validateFields, h0, h1, h2, h3, h4, h5, h6, h7, h8, h9, h10,
      not_lt.mpr hle1, not_lt.mpr hle2]
  refine ⟨main, ?_⟩
  intro nowNs hn
  exact main "10.0.0.1,10.0.0.2,1234,80,24,6,0,1700000000,1700000005,10,1500" nowNs
    "10.0.0.1" "10.0.0.2" "1234" "80" "24" "6" "0"
    "1700000000" "1700000005" "10" "1500" (mkRat 1700000000 1) (mkRat 1700000005 1)
    (by decide) (by decide) (by decide) (by decide) (by decide) (by decide) (by decide)
    (by decide) (by decide) (by decide) (by decide)
    (nowCompare_of_le _ 1700000005000000000 nowNs (by decide) hn)
    (by decide) (by decide)

/-- Witness for C7 at `nowNs` exactly epoch-second 1700000005. -/
theorem validateLine_accepts_valid_witness :
    (1700000005000000000 : Nat) ≤ 1700000005000000000 ∧
    ValidateLine "10.0.0.1,10.0.0.2,1234,80,24,6,0,1700000000,1700000005,10,1500"
      1700000005000000000 = (true, "") :=
  ⟨by decide, validateLine_accepts_valid.2 1700000005000000000 (by decide)⟩

/-! ### Lemmas about the uploader model -/

theorem removeRemote_localFiles (w : World) (n : String) :
    (removeRemote w n).localFiles = w.localFiles := rfl

theorem setRemote_localFiles (w : World) (n : String) (s : Nat) :
    (setRemote w n s).localFiles = w.localFiles := rfl

theorem doStor_localFiles (env : UploadEnv) (w : World) (ls : Nat) (rn tn : String) :
    (Uploader.doStor env w ls rn tn).world.localFiles = w.localFiles := by
  unfold Uploader.doStor
  cases hm : remoteSize w tn <;> dsimp only <;> split_ifs <;> rfl

theorem uploadFile_localFiles (env : UploadEnv) (w : World) (f : String) :
    (Uploader.uploadFile env w f).world.localFiles = w.localFiles := by
  unfold Uploader.uploadFile
  split
  · rfl
  · dsimp only
    split_ifs <;> try rfl
    all_goals (split <;> try rfl)
    all_goals try split_ifs <;> try rfl
    all_goals (rw [doStor_localFiles]; try rfl)

theorem uploadFile_skip_when_identical (w : World) (f : String) (e : FsEntry)
    (hl : lookupLocal f w.localFiles = some e)
    (hr : remoteSize w f = some e.size) :
    Uploader.uploadFile allOk w f = ⟨true, 0, w⟩ := by
  unfold Uploader.uploadFile
  rw [hl]
  simp only [allOk, Bool.not_true, Bool.false_eq_true, if_false]
  rw [hr]
  simp

theorem lookup_filter_keep (p : String → Bool) :
    ∀ (l : List (String × Nat)) (n : String), p n = true →
      List.lookup n (l.filter (fun e => p e.1)) = List.lookup n l := by
  intro l
  induction l with
  | nil => intro n _; rfl
  | cons hd tl ih =>
    intro n hp
    obtain ⟨k, v⟩ := hd
    by_cases hk : n = k
    · subst hk
      rw [List.filter_cons_of_pos (by simpa using hp)]
      simp [List.lookup]
    · have hkb : (n == k) = false := by simp [hk]
      by_cases hph : p k = true
      · rw [List.filter_cons_of_pos (by simpa using hph)]
        simp [List.lookup, hkb, ih n hp]
      · rw [List.filter_cons_of_neg (by simpa using hph)]
        simp [List.lookup, hkb, ih n hp]

theorem lookup_remove_all (l : List (String × Nat)) (n : String) :
    List.lookup n (l.filter (fun e => !(e.1 == n))) = none := by
  induction l with
  | nil => rfl
  | cons hd tl ih =>
    obtain ⟨k, v⟩ := hd
    by_cases hk : k = n
    · subst hk
      rw [List.filter_cons_of_neg (by simp)]
      exact ih
    · have hnb : (n == k) = false := by simpa using Ne.symm hk
      rw [List.filter_cons_of_pos (by simpa using hk)]
      simp [List.lookup, hnb, ih]

theorem lookup_append_right (l1 l2 : List (String × Nat)) (n : String)
    (h : List.lookup n l1 = none) :
    List.lookup n (l1 ++ l2) = List.lookup n l2 := by
  induction l1 with
  | nil => rfl
  | cons hd tl ih =>
    obtain ⟨k, v⟩ := hd
    rcases hkb : (n == k) with _ | _
    · simp only [List.cons_append, List.lookup, hkb] at h ⊢
      exact ih h
    · simp [List.lookup, hkb] at h

theorem remoteSize_setRemote_self (w : World) (n : String) (s : Nat) :
    remoteSize (setRemote w n s) n = some s := by
  unfold remoteSize setRemote removeRemote
  rw [lookup_append_right _ _ _ (lookup_remove_all ..)]
  simp [List.lookup]

theorem uploadFile_replaces_when_size_differs (w : World) (f : String) (e : FsEntry) (rs : Nat)
    (hl : lookupLocal f w.localFiles = some e)
    (hr : remoteSize w f = some rs)
    (hne : rs ≠ e.size) :
    (Uploader.uploadFile allOk w f).ok = true ∧
    (Uploader.uploadFile allOk w f).stors = 1 ∧
    remoteSize (Uploader.uploadFile allOk w f).world f = some e.size ∧
    (Uploader.uploadFile allOk w f).world.localFiles = w.localFiles := by
  have hb : (rs == e.size) = false := by simp [hne]
  refine ⟨?_, ?_, ?_, uploadFile_localFiles ..⟩ <;>
  · unfold Uploader.uploadFile
    rw [hl]
    simp only [allOk, Bool.not_true, Bool.false_eq_true, if_false]
    rw [hr]
    simp only [hb, Bool.false_eq_true, if_false, if_true]
    unfold Uploader.doStor
    simp only [allOk, Bool.not_true, Bool.false_eq_true, if_false, Option.getD_none,
      beq_self_eq_true, Bool.not_true, if_true]
    try (split <;> simp [remoteSize_setRemote_self])

theorem isPrefixCharsB_head_clash (a b : Char) (la lb l : List Char)
    (hab : (b == a) = false) (h : isPrefixCharsB (a :: la) l = true) :
    isPrefixCharsB (b :: lb) l = false := by
  cases l with
  | nil => simp [isPrefixCharsB] at h
  | cons c cs =>
    simp only [isPrefixCharsB, Bool.and_eq_true] at h
    obtain ⟨hac, _⟩ := h
    have hca : c = a := ((beq_iff_eq ..).mp hac).symm
    subst hca
    simp [isPrefixCharsB, hab]

theorem gz_not_tmp (n : String) (h : hasSuffix n ".csv.gz" = true) :
    hasSuffix n ".tmp" = false := by
  unfold hasSuffix at h ⊢
  have e1 : (".csv.gz" : String).data.reverse = 'z' :: ['g', '.', 'v', 's', 'c', '.'] := rfl
  have e2 : (".tmp" : String).data.reverse = 'p' :: ['m', 't', '.'] := rfl
  rw [e1] at h
  rw [e2]
  exact isPrefixCharsB_head_clash 'z' 'p' _ _ _ (by decide) h

theorem part_not_gz (n : String) (h : hasSuffix n ".part" = true) :
    hasSuffix n ".csv.gz" = false := by
  unfold hasSuffix at h ⊢
  have e1 : (".part" : String).data.reverse = 't' :: ['r', 'a', 'p', '.'] := rfl
  have e2 : (".csv.gz" : String).data.reverse = 'z' :: ['g', '.', 'v', 's', 'c', '.'] := rfl
  rw [e1] at h
  rw [e2]
  exact isPrefixCharsB_head_clash 't' 'z' _ _ _ (by decide) h

theorem lookupLocal_filter_ne (m n : String) (hne : m ≠ n) :
    ∀ l : List FsEntry,
      lookupLocal m (l.filter (fun e => !(e.name == n))) = lookupLocal m l := by
  intro l
  induction l with
  | nil => rfl
  | cons hd tl ih =>
    by_cases hk : hd.name = n
    · rw [List.filter_cons_of_neg (by simp [hk])]
      rw [ih]
      have hm : ¬(hd.name = m) := fun hc => hne ((hc ▸ hk) ▸ rfl)
      simp [lookupLocal, hm]
    · rw [List.filter_cons_of_pos (by simp [hk])]
      by_cases hm : hd.name = m
      · simp [lookupLocal, hm]
      · simp [lookupLocal, hm, ih]

theorem lookupLocal_of_mem_nodup :
    ∀ (l : List FsEntry), (l.map FsEntry.name).Nodup → ∀ e ∈ l, lookupLocal e.name l = some e := by
  intro l
  induction l with
  | nil => intro _ e he; cases he
  | cons hd tl ih =>
    intro hnd e he
    rw [List.map_cons, List.nodup_cons] at hnd
    obtain ⟨hni, hnd2⟩ := hnd
    rcases List.mem_cons.mp he with he2 | he2
    · subst he2
      simp [lookupLocal]
    · have hm : ¬(hd.name = e.name) := by
        intro hcontra
        exact hni (hcontra ▸ List.mem_map_of_mem FsEntry.name he2)
      simp [lookupLocal, hm]
      exact ih hnd2 e he2

theorem cleanup_localFiles (ok : Bool) (w : World) :
    (Uploader.cleanupRemoteTempFiles ok w).localFiles = w.localFiles := by
  unfold Uploader.cleanupRemoteTempFiles
  split <;> rfl

theorem scanNames_cleanup (ok : Bool) (w : World) :
    Uploader.scanNames (Uploader.cleanupRemoteTempFiles ok w) = Uploader.scanNames w := by
  unfold Uploader.scanNames
  rw [cleanup_localFiles]

theorem scanNames_suffix (w : World) (n : String) (h : n ∈ Uploader.scanNames w) :
    hasSuffix n ".csv.gz" = true := by
  unfold Uploader.scanNames at h
  obtain ⟨e, hmem, hname⟩ := List.mem_map.mp h
  have := List.of_mem_filter hmem
  rw [Bool.and_eq_true] at this
  exact hname ▸ this.2

theorem scanNames_nodup (w : World) (hnd : (w.localFiles.map FsEntry.name).Nodup) :
    (Uploader.scanNames w).Nodup := by
  unfold Uploader.scanNames
  exact hnd.sublist (List.Sublist.map FsEntry.name (List.filter_sublist _))

theorem scanNames_mem_entry (w : World) (n : String) (h : n ∈ Uploader.scanNames w) :
    ∃ e ∈ w.localFiles, e.name = n ∧ e.isDir = false ∧ hasSuffix e.name ".csv.gz" = true := by
  unfold Uploader.scanNames at h
  obtain ⟨e, hmem, hname⟩ := List.mem_map.mp h
  have hf := List.of_mem_filter hmem
  rw [Bool.and_eq_true] at hf
  exact ⟨e, List.mem_of_mem_filter hmem, hname, by simpa using hf.1, hf.2⟩

theorem scan_skip_fold :
    ∀ (ns : List String) (acc : ScanResult),
      ns.Nodup →
      (∀ n ∈ ns, ∃ e : FsEntry, lookupLocal n acc.world.localFiles = some e ∧
          remoteSize acc.world n = some e.size) →
      ((ns.foldl (Uploader.uploadStep (fun _ => allOk)) acc).stors = acc.stors ∧
       (ns.foldl (Uploader.uploadStep (fun _ => allOk)) acc).localDeletes
         = acc.localDeletes + ns.length ∧
       (ns.foldl (Uploader.uploadStep (fun _ => allOk)) acc).world.remote = acc.world.remote ∧
       (ns.foldl (Uploader.uploadStep (fun _ => allOk)) acc).world.localFiles
         = acc.world.localFiles.filter (fun e => !(ns.contains e.name)) ∧
       (ns.foldl (Uploader.uploadStep (fun _ => allOk)) acc).attempts
         = acc.attempts ++ ns.map (fun n => (n, true))) := by
  intro ns
  induction ns with
  | nil =>
    intro acc _ _
    refine ⟨rfl, by simp, rfl, ?_, by simp⟩
    simp [List.contains]
  | cons n tl ih =>
    intro acc hnd hex
    obtain ⟨e, hle, hre⟩ := hex n (List.mem_cons_self ..)
    rw [List.nodup_cons] at hnd
    obtain ⟨hnotin, hndtl⟩ := hnd
    rw [List.foldl_cons]
    have hstep : Uploader.uploadStep (fun _ => allOk) acc n
        = ⟨acc.stors, acc.localDeletes + 1, acc.attempts ++ [(n, true)],
           removeLocal acc.world n⟩ := by
      unfold Uploader.uploadStep
      rw [uploadFile_skip_when_identical acc.world n e hle hre]
      simp [allOk]
    rw [hstep]
    have hexnext : ∀ m ∈ tl, ∃ e2 : FsEntry,
        lookupLocal m (removeLocal acc.world n).localFiles = some e2 ∧
        remoteSize (removeLocal acc.world n) m = some e2.size := by
      intro m hm
      obtain ⟨e2, hl2, hr2⟩ := hex m (List.mem_cons_of_mem _ hm)
      have hmn : m ≠ n := fun hc => hnotin (hc ▸ hm)
      refine ⟨e2, ?_, hr2⟩
      show lookupLocal m (acc.world.localFiles.filter (fun e => !(e.name == n))) = some e2
      rw [lookupLocal_filter_ne m n hmn]
      exact hl2
    obtain ⟨h1, h2, h3, h4, h5⟩ := ih ⟨acc.stors, acc.localDeletes + 1,
      acc.attempts ++ [(n, true)], removeLocal acc.world n⟩ hndtl hexnext
    refine ⟨h1, ?_, h3, ?_, ?_⟩
    · rw [h2]
      simp only [List.length_cons]
      omega
    · rw [h4]
      show (acc.world.localFiles.filter (fun e => !(e.name == n))).filter
          (fun e => !(tl.contains e.name)) = _
      rw [List.filter_filter]
      apply List.filter_congr
      intro x _
      by_cases hxn : x.name = n <;>
        simp [hxn, List.contains_cons, Bool.not_or, Bool.and_comm]
    · rw [h5]
      simp

/-- C2: the uploader's per-file duplicate handling and the idempotence of
a whole scan.  (1) When a remote file with the same name and the same
byte size exists, `uploadFile` succeeds with zero `Stor` transfers and an
untouched filesystem state, so `scanAndUpload` then deletes the local
file.  (2) When a remote file with the same name but a different size
exists, the remote copy is deleted and a fresh upload performed: one
`Stor`, remote now holding the local size, local files untouched by
`uploadFile` itself.  (3) Rerunning a fault-free scan against a remote
directory that already holds byte-identical copies of every completed
archive performs zero transfers and exactly one local delete per scanned
archive, removing exactly the scanned files. -/
theorem upload_idempotent_skip :
    (∀ (w : World) (f : String) (e : FsEntry),
      lookupLocal f w.localFiles = some e →
      remoteSize w f = some e.size →
      Uploader.uploadFile allOk w f = ⟨true, 0, w⟩) ∧
    (∀ (w : World) (f : String) (e : FsEntry) (rs : Nat),
      lookupLocal f w.localFiles = some e →
      remoteSize w f = some rs → rs ≠ e.size →
      (Uploader.uploadFile allOk w f).ok = true ∧
      (Uploader.uploadFile allOk w f).stors = 1 ∧
      remoteSize (Uploader.uploadFile allOk w f).world f = some e.size ∧
      (Uploader.uploadFile allOk w f).world.localFiles = w.localFiles) ∧
    (∀ w : World,
      (w.localFiles.map FsEntry.name).Nodup →
      (∀ e ∈ w.localFiles, e.isDir = false → hasSuffix e.name ".csv.gz" = true →
        remoteSize w e.name = some e.size) →
      (Uploader.scanAndUpload (fun _ => allOk) true w).stors = 0 ∧
      (Uploader.scanAndUpload (fun _ => allOk) true w).localDeletes
        = (Uploader.scanNames w).length ∧
      (Uploader.scanAndUpload (fun _ => allOk) true w).world.localFiles
        = w.localFiles.filter (fun e => !((Uploader.scanNames w).contains e.name)) ∧
      (Uploader.scanAndUpload (fun _ => allOk) true w).attempts
        = (Uploader.scanNames w).map (fun n => (n, true))) := by
  refine ⟨uploadFile_skip_when_identical, uploadFile_replaces_when_size_differs, ?_⟩
  intro w hnd hrem
  unfold Uploader.scanAndUpload
  dsimp only
  rw [scanNames_cleanup]
  have hex : ∀ n ∈ Uploader.scanNames w, ∃ e : FsEntry,
      lookupLocal n (Uploader.cleanupRemoteTempFiles true w).localFiles = some e ∧
      remoteSize (Uploader.cleanupRemoteTempFiles true w) n = some e.size := by
    intro n hm
    obtain ⟨e, hmem, hname, hdir, hgz⟩ := scanNames_mem_entry w n hm
    refine ⟨e, ?_, ?_⟩
    · rw [cleanup_localFiles]
      exact hname ▸ lookupLocal_of_mem_nodup w.localFiles hnd e hmem
    · have hclean : (Uploader.cleanupRemoteTempFiles true w).remote
          = w.remote.filter (fun p => !(hasSuffix p.1 ".tmp")) := rfl
      show List.lookup n (Uploader.cleanupRemoteTempFiles true w).remote = some e.size
      rw [hclean]
      have hntmp : (!(hasSuffix n ".tmp")) = true := by
        rw [gz_not_tmp n (scanNames_suffix w n hm)]
        rfl
      rw [lookup_filter_keep (fun m => !(hasSuffix m ".tmp")) w.remote n hntmp]
      exact hname ▸ hrem e hmem hdir hgz
  obtain ⟨h1, h2, h3, h4, h5⟩ := scan_skip_fold (Uploader.scanNames w)
    ⟨0, 0, [], Uploader.cleanupRemoteTempFiles true w⟩ (scanNames_nodup w hnd) hex
  refine ⟨h1, by rw [h2]; simp, ?_, by rw [h5]; rfl⟩
  rw [h4, cleanup_localFiles]

/-- Witness for C2 at concrete one-file worlds. -/
theorem upload_idempotent_skip_witness :
    (lookupLocal "a.csv.gz" (World.mk [⟨"a.csv.gz", 5, false⟩] [("a.csv.gz", 5)]).localFiles
       = some ⟨"a.csv.gz", 5, false⟩ ∧
     remoteSize (World.mk [⟨"a.csv.gz", 5, false⟩] [("a.csv.gz", 5)]) "a.csv.gz" = some 5 ∧
     Uploader.uploadFile allOk (World.mk [⟨"a.csv.gz", 5, false⟩] [("a.csv.gz", 5)]) "a.csv.gz"
       = ⟨true, 0, World.mk [⟨"a.csv.gz", 5, false⟩] [("a.csv.gz", 5)]⟩) ∧
    ((Uploader.uploadFile allOk (World.mk [⟨"b.csv.gz", 5, false⟩] [("b.csv.gz", 7)]) "b.csv.gz").ok
       = true ∧
     (Uploader.uploadFile allOk (World.mk [⟨"b.csv.gz", 5, false⟩] [("b.csv.gz", 7)]) "b.csv.gz").stors
       = 1 ∧
     remoteSize (Uploader.uploadFile allOk (World.mk [⟨"b.csv.gz", 5, false⟩] [("b.csv.gz", 7)])
         "b.csv.gz").world "b.csv.gz" = some 5) ∧
    ((Uploader.scanAndUpload (fun _ => allOk) true
        (World.mk [⟨"a.csv.gz", 5, false⟩] [("a.csv.gz", 5)])).stors = 0 ∧
     (Uploader.scanAndUpload (fun _ => allOk) true
        (World.mk [⟨"a.csv.gz", 5, false⟩] [("a.csv.gz", 5)])).localDeletes = 1 ∧
     (Uploader.scanAndUpload (fun _ => allOk) true
        (World.mk [⟨"a.csv.gz", 5, false⟩] [("a.csv.gz", 5)])).world.localFiles = []) := by
  refine ⟨⟨by decide, by decide,
    upload_idempotent_skip.1 _ "a.csv.gz" ⟨"a.csv.gz", 5, false⟩ (by decide) (by decide)⟩, ?_, ?_⟩
  · obtain ⟨hok, hst, hrs, _⟩ := upload_idempotent_skip.2.1
      (World.mk [⟨"b.csv.gz", 5, false⟩] [("b.csv.gz", 7)]) "b.csv.gz"
      ⟨"b.csv.gz", 5, false⟩ 7 (by decide) (by decide) (by decide)
    exact ⟨hok, hst, hrs⟩
  · obtain ⟨h1, h2, h3, _⟩ := upload_idempotent_skip.2.2
      (World.mk [⟨"a.csv.gz", 5, false⟩] [("a.csv.gz", 5)]) (by decide)
      (by decide)
    refine ⟨h1, ?_, ?_⟩
    · rw [h2]; decide
    · rw [h3]; decide

theorem uploadStep_attempts (envf : String → UploadEnv) (acc : ScanResult) (n : String) :
    (Uploader.uploadStep envf acc n).attempts
      = acc.attempts ++ [(n, (Uploader.uploadFile (envf n) acc.world n).ok)] := by
  unfold Uploader.uploadStep
  dsimp only
  split
  · next h => rw [h]
  · next h =>
    rw [Bool.not_eq_true] at h
    rw [h]

theorem uploadStep_world_ok_rm (envf : String → UploadEnv) (acc : ScanResult) (n : String)
    (hok : (Uploader.uploadFile (envf n) acc.world n).ok = true)
    (hrm : (envf n).removeOk = true) :
    (Uploader.uploadStep envf acc n).world.localFiles
      = acc.world.localFiles.filter (fun x => !(x.name == n)) := by
  unfold Uploader.uploadStep
  dsimp only
  rw [if_pos hok, if_pos hrm, if_pos hrm]
  show (removeLocal (Uploader.uploadFile (envf n) acc.world n).world n).localFiles = _
  unfold removeLocal
  rw [uploadFile_localFiles]

theorem uploadStep_world_ok_norm (envf : String → UploadEnv) (acc : ScanResult) (n : String)
    (hok : (Uploader.uploadFile (envf n) acc.world n).ok = true)
    (hrm : (envf n).removeOk = false) :
    (Uploader.uploadStep envf acc n).world.localFiles = acc.world.localFiles := by
  unfold Uploader.uploadStep
  dsimp only
  rw [if_pos hok, if_neg (by rw [hrm]; exact Bool.false_ne_true),
    if_neg (by rw [hrm]; exact Bool.false_ne_true)]
  exact uploadFile_localFiles ..

theorem uploadStep_world_fail (envf : String → UploadEnv) (acc : ScanResult) (n : String)
    (hok : (Uploader.uploadFile (envf n) acc.world n).ok = false) :
    (Uploader.uploadStep envf acc n).world.localFiles = acc.world.localFiles := by
  unfold Uploader.uploadStep
  dsimp only
  rw [if_neg (by rw [hok]; exact Bool.false_ne_true)]
  exact uploadFile_localFiles ..

theorem uploadLoop_names (envf : String → UploadEnv) :
    ∀ (ns : List String) (acc : ScanResult),
      ((ns.foldl (Uploader.uploadStep envf) acc).attempts).map Prod.fst
        = acc.attempts.map Prod.fst ++ ns := by
  intro ns
  induction ns with
  | nil => intro acc; simp
  | cons n tl ih =>
    intro acc
    rw [List.foldl_cons, ih, uploadStep_attempts]
    simp

theorem uploadLoop_attempts_mono (envf : String → UploadEnv) :
    ∀ (ns : List String) (acc : ScanResult) (x : String × Bool),
      x ∈ acc.attempts → x ∈ (ns.foldl (Uploader.uploadStep envf) acc).attempts := by
  intro ns
  induction ns with
  | nil => intro acc x h; exact h
  | cons n tl ih =>
    intro acc x h
    rw [List.foldl_cons]
    apply ih
    rw [uploadStep_attempts]
    exact List.mem_append_left _ h

theorem uploadLoop_preserve (envf : String → UploadEnv) :
    ∀ (ns : List String) (acc : ScanResult) (e : FsEntry),
      e ∈ acc.world.localFiles →
      e ∈ (ns.foldl (Uploader.uploadStep envf) acc).world.localFiles ∨
      (e.name, true) ∈ (ns.foldl (Uploader.uploadStep envf) acc).attempts := by
  intro ns
  induction ns with
  | nil => intro acc e h; exact Or.inl h
  | cons n tl ih =>
    intro acc e he
    rw [List.foldl_cons]
    by_cases hok : (Uploader.uploadFile (envf n) acc.world n).ok = true
    · by_cases hrm : (envf n).removeOk = true
      · by_cases hname : e.name = n
        · right
          apply uploadLoop_attempts_mono
          rw [uploadStep_attempts, hok, hname]
          exact List.mem_append_right _ (List.mem_singleton.mpr rfl)
        · apply ih
          rw [uploadStep_world_ok_rm envf acc n hok hrm]
          exact List.mem_filter.mpr ⟨he, by simp [hname]⟩
      · apply ih
        rw [uploadStep_world_ok_norm envf acc n hok (by simpa using hrm)]
        exact he
    · apply ih
      rw [uploadStep_world_fail envf acc n (by simpa using hok)]
      exact he

theorem uploadLoop_untouched (envf : String → UploadEnv) :
    ∀ (ns : List String) (acc : ScanResult) (e : FsEntry),
      e ∈ acc.world.localFiles →
      (∀ n ∈ ns, e.name ≠ n) →
      e ∈ (ns.foldl (Uploader.uploadStep envf) acc).world.localFiles := by
  intro ns
  induction ns with
  | nil => intro acc e h _; exact h
  | cons n tl ih =>
    intro acc e he hne
    rw [List.foldl_cons]
    apply ih
    · by_cases hok : (Uploader.uploadFile (envf n) acc.world n).ok = true
      · by_cases hrm : (envf n).removeOk = true
        · rw [uploadStep_world_ok_rm envf acc n hok hrm]
          exact List.mem_filter.mpr ⟨he, by simp [hne n (List.mem_cons_self ..)]⟩
        · rw [uploadStep_world_ok_norm envf acc n hok (by simpa using hrm)]
          exact he
      · rw [uploadStep_world_fail envf acc n (by simpa using hok)]
        exact he
    · intro m hm
      exact hne m (List.mem_cons_of_mem _ hm)

theorem attempts_unique :
    ∀ (l : List (String × Bool)) (n : String) (a b : Bool),
      (l.map Prod.fst).Nodup → (n, a) ∈ l → (n, b) ∈ l → a = b := by
  intro l
  induction l with
  | nil => intro n a b _ h; cases h
  | cons hd tl ih =>
    intro n a b hnd ha hb
    rw [List.map_cons, List.nodup_cons] at hnd
    obtain ⟨hni, hnd2⟩ := hnd
    rcases List.mem_cons.mp ha with ha2 | ha2 <;> rcases List.mem_cons.mp hb with hb2 | hb2
    · exact (Prod.ext_iff.mp (ha2.trans hb2.symm)).2
    · exfalso
      apply hni
      have : hd.1 = n := by rw [← ha2]
      rw [this]
      exact List.mem_map_of_mem Prod.fst hb2
    · exfalso
      apply hni
      have : hd.1 = n := by rw [← hb2]
      rw [this]
      exact List.mem_map_of_mem Prod.fst ha2
    · exact ih n a b hnd2 ha2 hb2

/-- C3: failure isolation in one upload cycle.  Every scanned file is
attempted exactly once, in scan order, whatever the outcomes (a failure
does not stop the cycle); a file whose attempt failed is still present
locally afterwards (it is left for the next scan); and `uploadFile`
itself never touches the local directory — local deletion happens only in
`scanAndUpload` after a successful upload. -/
theorem upload_failure_isolation (envf : String → UploadEnv) (cleanupOk : Bool) (w : World)
    (hnd : (w.localFiles.map FsEntry.name).Nodup) :
    ((Uploader.scanAndUpload envf cleanupOk w).attempts.map Prod.fst = Uploader.scanNames w) ∧
    (∀ e ∈ w.localFiles,
      (e.name, false) ∈ (Uploader.scanAndUpload envf cleanupOk w).attempts →
      e ∈ (Uploader.scanAndUpload envf cleanupOk w).world.localFiles) ∧
    (∀ (env : UploadEnv) (w2 : World) (f : String),
      (Uploader.uploadFile env w2 f).world.localFiles = w2.localFiles) := by
  have hres : Uploader.scanAndUpload envf cleanupOk w
      = (Uploader.scanNames (Uploader.cleanupRemoteTempFiles cleanupOk w)).foldl
          (Uploader.uploadStep envf)
          ⟨0, 0, [], Uploader.cleanupRemoteTempFiles cleanupOk w⟩ := rfl
  have hattempts : (Uploader.scanAndUpload envf cleanupOk w).attempts.map Prod.fst
      = Uploader.scanNames w := by
    rw [hres, uploadLoop_names, scanNames_cleanup]
    rfl
  refine ⟨hattempts, ?_, fun env w2 f => uploadFile_localFiles env w2 f⟩
  intro e he hfalse
  have hmem : e ∈ (ScanResult.mk 0 0 []
      (Uploader.cleanupRemoteTempFiles cleanupOk w)).world.localFiles := by
    show e ∈ (Uploader.cleanupRemoteTempFiles cleanupOk w).localFiles
    rw [cleanup_localFiles]
    exact he
  have hpres := uploadLoop_preserve envf
    (Uploader.scanNames (Uploader.cleanupRemoteTempFiles cleanupOk w))
    (ScanResult.mk 0 0 [] (Uploader.cleanupRemoteTempFiles cleanupOk w)) e hmem
  rw [← hres] at hpres
  rcases hpres with h | h
  · exact h
  · exfalso
    have hnodup : ((Uploader.scanAndUpload envf cleanupOk w).attempts.map Prod.fst).Nodup := by
      rw [hattempts]
      exact scanNames_nodup w hnd
    exact absurd (attempts_unique _ e.name true false hnodup h hfalse) (by decide)

/-- Witness for C3: a two-file world where the first file's connection
fails and the second file uploads; the first remains local and both
appear in the attempt log. -/
theorem upload_failure_isolation_witness :
    ((World.mk [⟨"a.csv.gz", 5, false⟩, ⟨"b.csv.gz", 6, false⟩]
        []).localFiles.map FsEntry.name).Nodup ∧
    ((Uploader.scanAndUpload
        (fun n => if n == "a.csv.gz" then { allOk with dialOk := false } else allOk) true
        (World.mk [⟨"a.csv.gz", 5, false⟩, ⟨"b.csv.gz", 6, false⟩] [])).attempts.map Prod.fst
      = Uploader.scanNames (World.mk [⟨"a.csv.gz", 5, false⟩, ⟨"b.csv.gz", 6, false⟩] [])) ∧
    (("a.csv.gz", false) ∈ (Uploader.scanAndUpload
        (fun n => if n == "a.csv.gz" then { allOk with dialOk := false } else allOk) true
        (World.mk [⟨"a.csv.gz", 5, false⟩, ⟨"b.csv.gz", 6, false⟩] [])).attempts ∧
     (⟨"a.csv.gz", 5, false⟩ : FsEntry) ∈ (Uploader.scanAndUpload
        (fun n => if n == "a.csv.gz" then { allOk with dialOk := false } else allOk) true
        (World.mk [⟨"a.csv.gz", 5, false⟩, ⟨"b.csv.gz", 6, false⟩] [])).world.localFiles) :=
  ⟨by decide,
   (upload_failure_isolation
      (fun n => if n == "a.csv.gz" then { allOk with dialOk := false } else allOk) true
      (World.mk [⟨"a.csv.gz", 5, false⟩, ⟨"b.csv.gz", 6, false⟩] []) (by decide)).1,
   by decide,
   (upload_failure_isolation
      (fun n => if n == "a.csv.gz" then { allOk with dialOk := false } else allOk) true
      (World.mk [⟨"a.csv.gz", 5, false⟩, ⟨"b.csv.gz", 6, false⟩] []) (by decide)).2.1
     ⟨"a.csv.gz", 5, false⟩ (by decide) (by decide)⟩

theorem isPrefixCharsB_append_self : ∀ (l r : List Char), isPrefixCharsB l (l ++ r) = true := by
  intro l r
  induction l with
  | nil => rfl
  | cons c cs ih => simp [isPrefixCharsB, ih]

theorem hasSuffix_append_self (s t : String) : hasSuffix (s ++ t) t = true := by
  unfold hasSuffix
  rw [String.data_append, List.reverse_append]
  exact isPrefixCharsB_append_self ..

theorem takeLen_append {α : Type} : ∀ (l r : List α), (l ++ r).take l.length = l := by
  intro l r
  induction l with
  | nil => rfl
  | cons c cs ih => simp [ih]

theorem closeAndRename_part (bw : BatchWriter) (s : String) (h : bw.currentPath = s ++ ".part") :
    bw.closeAndRenameCurrentFile.archives = bw.archives ++ [(s ++ ".csv.gz", bw.flushed)] := by
  unfold BatchWriter.closeAndRenameCurrentFile
  have hempty : (bw.currentPath == "") = false := by
    rw [h]
    simp [strAppend_ne_empty_right s ".part" (by decide)]
  have hsuf : hasSuffix bw.currentPath ".part" = true := by
    rw [h]
    exact hasSuffix_append_self ..
  simp only [hempty, Bool.false_eq_true, if_false, hsuf, if_true]
  have hstem : String.mk (bw.currentPath.data.take (bw.currentPath.data.length - 5)) = s := by
    rw [h, String.data_append]
    have hlen : (s.data ++ (".part" : String).data).length - 5 = s.data.length := by
      rw [List.length_append]
      rfl
    rw [hlen, takeLen_append]
  rw [hstem]

/-- C5: the file-naming protocol.  A fresh active archive is created at
`dataDir/{prefix}{timestamp}_{index padded to three digits}.part`;
closing renames a `….part` archive to the same stem plus `.csv.gz`; the
uploader's scan selects exactly the non-directory entries whose names end
in `.csv.gz`; and a `.part` file is never selected by the scan and
survives any upload cycle untouched. -/
theorem naming_protocol :
    (∀ (fmtTs : Nat → String) (bw : BatchWriter) (now : Nat),
      (bw.rotateFile fmtTs now).currentPath
        = joinPath bw.dataDir (bw.filePrefix ++ fmtTs now ++ "_" ++ pad3 bw.fileIndex ++ ".part")) ∧
    (∀ (bw : BatchWriter) (s : String), bw.currentPath = s ++ ".part" →
      bw.closeAndRenameCurrentFile.archives = bw.archives ++ [(s ++ ".csv.gz", bw.flushed)]) ∧
    (∀ w : World, Uploader.scanNames w
      = (w.localFiles.filter (fun e => !e.isDir && hasSuffix e.name ".csv.gz")).map FsEntry.name) ∧
    (∀ (w : World) (n : String), hasSuffix n ".part" = true → n ∉ Uploader.scanNames w) ∧
    (∀ (envf : String → UploadEnv) (cleanupOk : Bool) (w : World) (e : FsEntry),
      e ∈ w.localFiles → hasSuffix e.name ".part" = true →
      e ∈ (Uploader.scanAndUpload envf cleanupOk w).world.localFiles) := by
  refine ⟨fun _ _ _ => rfl, closeAndRename_part, fun _ => rfl, ?_, ?_⟩
  · intro w n hp hmem
    have hgz := scanNames_suffix w n hmem
    rw [part_not_gz n hp] at hgz
    exact Bool.false_ne_true hgz
  · intro envf cleanupOk w e he hp
    show e ∈ ((Uploader.scanNames (Uploader.cleanupRemoteTempFiles cleanupOk w)).foldl
      (Uploader.uploadStep envf)
      (ScanResult.mk 0 0 [] (Uploader.cleanupRemoteTempFiles cleanupOk w))).world.localFiles
    apply uploadLoop_untouched
    · show e ∈ (Uploader.cleanupRemoteTempFiles cleanupOk w).localFiles
      rw [cleanup_localFiles]
      exact he
    · intro m hm hcontra
      have hgz := scanNames_suffix _ m hm
      rw [← hcontra, part_not_gz e.name hp] at hgz
      exact Bool.false_ne_true hgz

/-- Witness for C5 at concrete writers, names and worlds. -/
theorem naming_protocol_witness :
    ((NewBatchWriter "d" "pf" 60 1).rotateFile (fun _ => "20240101_000000") 0).currentPath
      = joinPath "d" ("pf" ++ "20240101_000000" ++ "_" ++ pad3 0 ++ ".part") ∧
    ((BatchWriter.mk "d" "pf" 60 1 true "x.part" "body" "" 0 0 1 false [] "").currentPath
       = "x" ++ ".part" ∧
     (BatchWriter.mk "d" "pf" 60 1 true "x.part" "body" "" 0 0 1 false
        [] "").closeAndRenameCurrentFile.archives = [] ++ [("x" ++ ".csv.gz", "body")]) ∧
    (hasSuffix "q.part" ".part" = true ∧
     "q.part" ∉ Uploader.scanNames (World.mk [⟨"q.part", 3, false⟩] []) ∧
     (⟨"q.part", 3, false⟩ : FsEntry) ∈ (Uploader.scanAndUpload (fun _ => allOk) true
        (World.mk [⟨"q.part", 3, false⟩] [])).world.localFiles) :=
  ⟨naming_protocol.1 (fun _ => "20240101_000000") (NewBatchWriter "d" "pf" 60 1) 0,
   ⟨by decide,
    naming_protocol.2.1 (BatchWriter.mk "d" "pf" 60 1 true "x.part" "body" "" 0 0 1 false [] "")
      "x" (by decide)⟩,
   by decide,
   naming_protocol.2.2.2.1 (World.mk [⟨"q.part", 3, false⟩] []) "q.part" (by decide),
   naming_protocol.2.2.2.2 (fun _ => allOk) true (World.mk [⟨"q.part", 3, false⟩] [])
     ⟨"q.part", 3, false⟩ (by decide) (by decide)⟩

theorem ingestLine_errRecords_extends (nowNs : Nat) (st : IngestState) (line : String) :
    ∃ t, (ingestLine nowNs st line).errRecords = st.errRecords ++ t := by
  unfold ingestLine
  split
  · exact ⟨[], by simp⟩
  · split
    · exact ⟨[], by simp⟩
    · dsimp only
      split
      · exact ⟨[], by simp⟩
      · exact ⟨[(st.lineCount + 1, line, (ValidateLine line nowNs).2)], rfl⟩

theorem ingestFold_errRecords_extends (nowNs : Nat) :
    ∀ (input : List String) (st : IngestState),
      ∃ t, (input.foldl (ingestLine nowNs) st).errRecords = st.errRecords ++ t := by
  intro input
  induction input with
  | nil => intro st; exact ⟨[], by simp⟩
  | cons line tl ih =>
    intro st
    rw [List.foldl_cons]
    obtain ⟨t1, h1⟩ := ingestLine_errRecords_extends nowNs st line
    obtain ⟨t2, h2⟩ := ih (ingestLine nowNs st line)
    exact ⟨t1 ++ t2, by rw [h2, h1, List.append_assoc]⟩

/-- C1 of the error file, part of C9: the counterexample input.  The
header line `src_ip|dst_ip` is consumed, so the rejected second input
line is recorded with number 1, not with its 1-based input position 2. -/
theorem errorline_number_counterexample :
    (runIngest 0 [] ["src_ip|dst_ip", "1,2"]).errRecords
      = [(1, "1,2", "column count != 11")] ∧
    ["src_ip|dst_ip", "1,2"].get? 1 = some "1,2" ∧
    (1 : Nat) ≠ 2 := by
  refine ⟨by decide, by decide, by decide⟩

/-- C9 (amended): every rejected data line is appended to the append-only
error file as one record `(index, raw line, reason)`, where the index is
the 1-based position of the line among the non-empty, non-header data
lines processed so far (blank lines and the consumed header are not
counted); the file keeps everything it already held.  In particular a
line whose destination port is 99999, arriving right after the header, is
rejected with the port-range reason and recorded with index 1. -/
theorem errorline_records :
    (∀ (nowNs : Nat) (errFile0 : List (Nat × String × String)) (input : List String),
      ∃ newRecs, (runIngest nowNs errFile0 input).errRecords = errFile0 ++ newRecs) ∧
    (∀ (nowNs : Nat) (st : IngestState) (line : String),
      line.data.isEmpty = false →
      (st.headerProcessed = true ∨ isHeaderLine line = false) →
      (ValidateLine line nowNs).1 = false →
      ingestLine nowNs st line
        = { st with
            errRecords := (st.errRecords
              ++ [(st.lineCount + 1, line, (ValidateLine line nowNs).2)]),
            lineCount := st.lineCount + 1 }) ∧
    ((runIngest 1700000005000000000 []
        ["src_ip|dst_ip", "10.0.0.1,10.0.0.2,1234,99999,24,6,0,1700000000,1700000005,10,1500"]).errRecords
      = [(1, "10.0.0.1,10.0.0.2,1234,99999,24,6,0,1700000000,1700000005,10,1500",
          "DST_PORT is not valid")]) := by
  refine ⟨?_, ?_, by decide⟩
  · intro nowNs errFile0 input
    exact ingestFold_errRecords_extends nowNs input ⟨0, false, errFile0, []⟩
  · intro nowNs st line hne hnh hval
    unfold ingestLine
    rw [if_neg (by rw [hne]; exact Bool.false_ne_true)]
    have hhd : (!st.headerProcessed && isHeaderLine line) = false := by
      rcases hnh with h | h
      · rw [h]
        rfl
      · rw [h]
        exact Bool.and_false _
    rw [if_neg (by rw [hhd]; exact Bool.false_ne_true)]
    rw [if_neg (by rw [hval]; exact Bool.false_ne_true)]

/-- Witness for C9's amended theorem at a concrete state and input. -/
theorem errorline_records_witness :
    (∃ newRecs, (runIngest 0 [(7, "old", "r")] ["src_ip|dst_ip", "1,2"]).errRecords
       = [(7, "old", "r")] ++ newRecs) ∧
    (("1,2" : String).data.isEmpty = false ∧
     ((IngestState.mk 4 true [] []).headerProcessed = true ∨ isHeaderLine "1,2" = false) ∧
     (ValidateLine "1,2" 0).1 = false ∧
     ingestLine 0 (IngestState.mk 4 true [] []) "1,2"
       = IngestState.mk 5 true [(5, "1,2", "column count != 11")] []) :=
  ⟨errorline_records.1 0 [(7, "old", "r")] ["src_ip|dst_ip", "1,2"],
   by decide, Or.inl rfl, by decide,
   by
     have h := errorline_records.2.1 0 (IngestState.mk 4 true [] []) "1,2"
       (by decide) (Or.inl rfl) (by decide)
     rw [h]
     decide⟩

theorem concatNL_append : ∀ (l1 l2 : List DataLine),
    concatNL (l1 ++ l2) = concatNL l1 ++ concatNL l2 := by
  intro l1 l2
  induction l1 with
  | nil =>
    show concatNL l2 = "" ++ concatNL l2
    exact (String.empty_append _).symm
  | cons d t ih =>
    show d.Line ++ "\n" ++ concatNL (t ++ l2) = (d.Line ++ "\n" ++ concatNL t) ++ concatNL l2
    rw [ih, ← String.append_assoc]

theorem rawBytes_append (l1 l2 : List DataLine) :
    rawBytes (l1 ++ l2) = rawBytes l1 + rawBytes l2 := by
  unfold rawBytes
  rw [List.map_append, List.sum_append]

theorem archivesContent_append_one : ∀ (l : List (String × String)) (x : String × String),
    archivesContent (l ++ [x]) = archivesContent l ++ x.2 := by
  intro l x
  induction l with
  | nil =>
    show x.2 ++ "" = "" ++ x.2
    rw [String.append_empty, String.empty_append]
  | cons a t ih =>
    show a.2 ++ archivesContent (t ++ [x]) = (a.2 ++ archivesContent t) ++ x.2
    rw [ih, ← String.append_assoc]

theorem writeLines_pending (bw : BatchWriter) (ls : List DataLine) :
    (bw.writeLines ls).pending = bw.pending ++ concatNL ls := by
  induction ls generalizing bw with
  | nil =>
    show bw.pending = bw.pending ++ ""
    rw [String.append_empty]
  | cons dl tl ih =>
    have h := ih { bw with pending := bw.pending ++ dl.Line ++ "\n",
                           writtenBytes := bw.writtenBytes + (utf8Len dl.Line + 1) }
    simp only [BatchWriter.writeLines, List.foldl_cons] at h ⊢
    rw [h]
    show (bw.pending ++ dl.Line) ++ "\n" ++ concatNL tl
        = bw.pending ++ ((dl.Line ++ "\n") ++ concatNL tl)
    rw [String.append_assoc, String.append_assoc, String.append_assoc]

theorem closeAndRename_archives_ex (bw : BatchWriter) (h : bw.currentPath ≠ "") :
    ∃ p, bw.closeAndRenameCurrentFile.archives = bw.archives ++ [(p, bw.flushed)] := by
  unfold BatchWriter.closeAndRenameCurrentFile
  have hempty : (bw.currentPath == "") = false := by simp [h]
  simp only [hempty, Bool.false_eq_true, if_false]
  split <;> exact ⟨_, rfl⟩

theorem writeBatch_eq (fmtTs : Nat → String) (bw : BatchWriter) (ls : List DataLine) (now : Nat)
    (hc : bw.closed = false) :
    BatchWriter.WriteBatch fmtTs bw ls now
      = (if ((if bw.fileOpen then bw else bw.rotateFile fmtTs now).writeLines ls).shouldRotate now
         then (((if bw.fileOpen then bw
                 else bw.rotateFile fmtTs now).writeLines ls).flushAndRotate fmtTs now, none)
         else ((if bw.fileOpen then bw else bw.rotateFile fmtTs now).writeLines ls, none)) := by
  unfold BatchWriter.WriteBatch
  rw [hc]
  simp only [Bool.false_eq_true, if_false]

theorem close_archives_open (S : BatchWriter) (hc : S.closed = false) (ho : S.fileOpen = true)
    (hp : S.currentPath ≠ "") :
    ∃ pth, ((S.Close).1).archives = S.archives ++ [(pth, S.flushed ++ S.pending)] := by
  unfold BatchWriter.Close
  rw [hc]
  simp only [Bool.false_eq_true, if_false]
  dsimp only
  rw [if_pos (show ({ S with closed := true } : BatchWriter).fileOpen = true from ho)]
  obtain ⟨pth, hpth⟩ :=
    closeAndRename_archives_ex (({ S with closed := true } : BatchWriter).bufFlush)
      (show ({ S with closed := true } : BatchWriter).bufFlush.currentPath ≠ "" from hp)
  exact ⟨pth, hpth⟩

theorem close_archives_noopen (S : BatchWriter) (hc : S.closed = false)
    (ho : S.fileOpen = false) :
    ((S.Close).1).archives = S.archives ∨
    ∃ pth, ((S.Close).1).archives = S.archives ++ [(pth, S.flushed)] := by
  unfold BatchWriter.Close
  rw [hc]
  simp only [Bool.false_eq_true, if_false]
  dsimp only
  rw [if_neg (show ¬({ S with closed := true } : BatchWriter).fileOpen = true by
    rw [show ({ S with closed := true } : BatchWriter).fileOpen = S.fileOpen from rfl, ho]
    exact Bool.false_ne_true)]
  by_cases hp : S.currentPath = ""
  · left
    unfold BatchWriter.closeAndRenameCurrentFile
    have : (({ S with closed := true } : BatchWriter).currentPath == "") = true := by
      simp [hp]
    simp only [this, if_true]
  · right
    exact closeAndRename_archives_ex _ (show _ ≠ "" from hp)

theorem closeAndRename_fields (bw : BatchWriter) :
    bw.closeAndRenameCurrentFile.rotateIntervalSec = bw.rotateIntervalSec ∧
    bw.closeAndRenameCurrentFile.rotateSizeMB = bw.rotateSizeMB ∧
    bw.closeAndRenameCurrentFile.flushed = bw.flushed ∧
    bw.closeAndRenameCurrentFile.pending = bw.pending ∧
    bw.closeAndRenameCurrentFile.currentPath = bw.currentPath ∧
    bw.closeAndRenameCurrentFile.writtenBytes = bw.writtenBytes ∧
    bw.closeAndRenameCurrentFile.startTime = bw.startTime ∧
    bw.closeAndRenameCurrentFile.fileOpen = false := by
  unfold BatchWriter.closeAndRenameCurrentFile
  split <;> exact ⟨rfl, rfl, rfl, rfl, rfl, rfl, rfl, rfl⟩

theorem bufFlush_fields2 (bw : BatchWriter) :
    bw.bufFlush.rotateIntervalSec = bw.rotateIntervalSec ∧
    bw.bufFlush.rotateSizeMB = bw.rotateSizeMB ∧
    bw.bufFlush.writtenBytes = bw.writtenBytes ∧
    bw.bufFlush.startTime = bw.startTime :=
  ⟨rfl, rfl, rfl, rfl⟩

theorem writeBatch_inv (fmtTs : Nat → String) (t0 : Nat) (bw : BatchWriter)
    (ls : List DataLine) (written : String) (raw : Nat)
    (hI : 0 < bw.rotateIntervalSec)
    (hc : bw.closed = false)
    (heq : archivesContent bw.archives ++ (bw.flushed ++ bw.pending) = written)
    (hbound : bw.rotateSizeMB * 1024 * 1024 * bw.archives.length + bw.writtenBytes ≤ raw)
    (hempty : bw.fileOpen = false → bw.flushed = "" ∧ bw.pending = "")
    (hstart : bw.fileOpen = true → bw.startTime = t0)
    (hpath : bw.fileOpen = true → bw.currentPath ≠ "") :
    (BatchWriter.WriteBatch fmtTs bw ls t0).1.closed = false ∧
    (BatchWriter.WriteBatch fmtTs bw ls t0).1.rotateIntervalSec = bw.rotateIntervalSec ∧
    (BatchWriter.WriteBatch fmtTs bw ls t0).1.rotateSizeMB = bw.rotateSizeMB ∧
    (BatchWriter.WriteBatch fmtTs bw ls t0).1.fileOpen = true ∧
    (BatchWriter.WriteBatch fmtTs bw ls t0).1.startTime = t0 ∧
    (BatchWriter.WriteBatch fmtTs bw ls t0).1.currentPath ≠ "" ∧
    archivesContent (BatchWriter.WriteBatch fmtTs bw ls t0).1.archives
      ++ ((BatchWriter.WriteBatch fmtTs bw ls t0).1.flushed
          ++ (BatchWriter.WriteBatch fmtTs bw ls t0).1.pending)
      = written ++ concatNL ls ∧
    bw.rotateSizeMB * 1024 * 1024 * (BatchWriter.WriteBatch fmtTs bw ls t0).1.archives.length
      + (BatchWriter.WriteBatch fmtTs bw ls t0).1.writtenBytes
      ≤ raw + rawBytes ls := by
  rw [writeBatch_eq fmtTs bw ls t0 hc]
  set opened := if bw.fileOpen then bw else bw.rotateFile fmtTs t0 with hop
  have o1 : opened.closed = false := by
    rw [hop]
    split
    · exact hc
    · rw [(rotateFile_fields ..).2.2.2.2.2.2.1]
      exact hc
  have o2 : opened.rotateIntervalSec = bw.rotateIntervalSec := by
    rw [hop]
    split
    · rfl
    · exact (rotateFile_fields ..).2.2.2.2.1
  have o3 : opened.rotateSizeMB = bw.rotateSizeMB := by
    rw [hop]
    split
    · rfl
    · exact (rotateFile_fields ..).2.2.2.2.2.1
  have o4 : opened.fileOpen = true := by
    rw [hop]
    split
    · next h => exact h
    · exact (rotateFile_fields ..).2.2.1
  have o5 : opened.startTime = t0 := by
    rw [hop]
    split
    · next h => exact hstart h
    · exact (rotateFile_fields ..).2.1
  have o6 : opened.currentPath ≠ "" := by
    rw [hop]
    split
    · next h => exact hpath h
    · exact rotateFile_currentPath_ne _ _ _
  have o7 : archivesContent opened.archives ++ (opened.flushed ++ opened.pending) = written := by
    rw [hop]
    split
    · exact heq
    · next h =>
      have hff : bw.fileOpen = false := by
        rcases Bool.eq_false_or_eq_true bw.fileOpen with h2 | h2
        · exact absurd h2 h
        · exact h2
      obtain ⟨hf, hp2⟩ := hempty hff
      rw [(rotateFile_fields ..).2.2.2.1, (rotateFile_fields ..).2.2.2.2.2.2.2.1,
        (rotateFile_fields ..).2.2.2.2.2.2.2.2.1]
      rw [← heq, hf, hp2]
  have o8 : bw.rotateSizeMB * 1024 * 1024 * opened.archives.length + opened.writtenBytes
      ≤ raw := by
    rw [hop]
    split
    · exact hbound
    · rw [(rotateFile_fields ..).2.2.2.1, (rotateFile_fields ..).1]
      omega
  set wr := opened.writeLines ls with hwr
  have w1 : wr.closed = false := by
    rw [hwr, (writeLines_fields ..).2.2.2.2.2.2.2.2.1]
    exact o1
  have w2 : wr.rotateIntervalSec = bw.rotateIntervalSec := by
    rw [hwr, (writeLines_fields ..).2.2.1]
    exact o2
  have w3 : wr.rotateSizeMB = bw.rotateSizeMB := by
    rw [hwr, (writeLines_fields ..).2.2.2.1]
    exact o3
  have w4 : wr.fileOpen = true := by
    rw [hwr, (writeLines_fields ..).2.2.2.2.1]
    exact o4
  have w5 : wr.startTime = t0 := by
    rw [hwr, (writeLines_fields ..).2.2.2.2.2.2.1]
    exact o5
  have w6 : wr.currentPath ≠ "" := by
    rw [hwr, (writeLines_fields ..).2.2.2.2.2.1]
    exact o6
  have warch : wr.archives = opened.archives := by
    rw [hwr, (writeLines_fields ..).2.2.2.2.2.2.2.2.2.1]
  have wfl : wr.flushed = opened.flushed := by
    rw [hwr]
    exact (writeLines_fields ..).2.2.2.2.2.2.2.2.2.2
  have wpd : wr.pending = opened.pending ++ concatNL ls := by
    rw [hwr]
    exact writeLines_pending ..
  have wwb : wr.writtenBytes = opened.writtenBytes + rawBytes ls := by
    rw [hwr]
    exact writeLines_writtenBytes ..
  have wcontent : archivesContent wr.archives ++ (wr.flushed ++ wr.pending)
      = written ++ concatNL ls := by
    rw [warch, wfl, wpd, ← o7, String.append_assoc, String.append_assoc]
  by_cases hrot : wr.shouldRotate t0 = true
  · rw [if_pos hrot]
    have hntime : ¬(bw.rotateIntervalSec * 1000000000 ≤ t0 - wr.startTime) := by
      rw [w5, Nat.sub_self]
      intro hcontra
      have hpos : 0 < bw.rotateIntervalSec * 1000000000 := Nat.mul_pos hI (by norm_num)
      omega
    have hsize : bw.rotateSizeMB * 1024 * 1024 ≤ wr.writtenBytes := by
      unfold BatchWriter.shouldRotate at hrot
      rw [w2, w3] at hrot
      rcases Bool.or_eq_true_iff.mp hrot with h | h
      · exact absurd (of_decide_eq_true h) hntime
      · exact of_decide_eq_true h
    have hfr : wr.flushAndRotate fmtTs t0
        = BatchWriter.rotateFile fmtTs wr.bufFlush.closeAndRenameCurrentFile t0 := rfl
    obtain ⟨pth, hpth⟩ := closeAndRename_archives_ex wr.bufFlush
      (show wr.bufFlush.currentPath ≠ "" from w6)
    have harch2 : (wr.flushAndRotate fmtTs t0).archives
        = wr.archives ++ [(pth, wr.flushed ++ wr.pending)] := by
      rw [hfr, (rotateFile_fields ..).2.2.2.1]
      exact hpth
    refine ⟨?_, ?_, ?_, ?_, ?_, ?_, ?_, ?_⟩
    · show (wr.flushAndRotate fmtTs t0).closed = false
      rw [hfr, (rotateFile_fields ..).2.2.2.2.2.2.1, closeAndRename_closed, bufFlush_closed]
      exact w1
    · show (wr.flushAndRotate fmtTs t0).rotateIntervalSec = bw.rotateIntervalSec
      rw [hfr, (rotateFile_fields ..).2.2.2.2.1, (closeAndRename_fields ..).1,
        (bufFlush_fields2 ..).1]
      exact w2
    · show (wr.flushAndRotate fmtTs t0).rotateSizeMB = bw.rotateSizeMB
      rw [hfr, (rotateFile_fields ..).2.2.2.2.2.1, (closeAndRename_fields ..).2.1,
        (bufFlush_fields2 ..).2.1]
      exact w3
    · show (wr.flushAndRotate fmtTs t0).fileOpen = true
      rw [hfr]
      exact (rotateFile_fields ..).2.2.1
    · show (wr.flushAndRotate fmtTs t0).startTime = t0
      rw [hfr]
      exact (rotateFile_fields ..).2.1
    · show (wr.flushAndRotate fmtTs t0).currentPath ≠ ""
      rw [hfr]
      exact rotateFile_currentPath_ne _ _ _
    · show archivesContent (wr.flushAndRotate fmtTs t0).archives
          ++ ((wr.flushAndRotate fmtTs t0).flushed ++ (wr.flushAndRotate fmtTs t0).pending)
        = written ++ concatNL ls
      rw [harch2, hfr, (rotateFile_fields ..).2.2.2.2.2.2.2.1,
        (rotateFile_fields ..).2.2.2.2.2.2.2.2.1, archivesContent_append_one]
      show (archivesContent wr.archives ++ (wr.flushed ++ wr.pending)) ++ ("" ++ "") = _
      rw [String.empty_append, String.append_empty]
      exact wcontent
    · show bw.rotateSizeMB * 1024 * 1024 * (wr.flushAndRotate fmtTs t0).archives.length
          + (wr.flushAndRotate fmtTs t0).writtenBytes ≤ raw + rawBytes ls
      rw [harch2, hfr, (rotateFile_fields ..).1, List.length_append, warch]
      rw [wwb] at hsize
      show bw.rotateSizeMB * 1024 * 1024 * (opened.archives.length + [(pth, wr.flushed ++ wr.pending)].length) + 0
          ≤ raw + rawBytes ls
      rw [List.length_singleton, Nat.mul_add, Nat.mul_one]
      omega
  · rw [if_neg hrot]
    refine ⟨w1, w2, w3, w4, w5, w6, wcontent, ?_⟩
    show bw.rotateSizeMB * 1024 * 1024 * wr.archives.length + wr.writtenBytes ≤ raw + rawBytes ls
    rw [warch, wwb]
    omega

theorem runBatches_inv (fmtTs : Nat → String) (t0 : Nat) :
    ∀ (batches : List (List DataLine)) (bw : BatchWriter) (written : String) (raw : Nat),
      0 < bw.rotateIntervalSec → bw.closed = false →
      archivesContent bw.archives ++ (bw.flushed ++ bw.pending) = written →
      bw.rotateSizeMB * 1024 * 1024 * bw.archives.length + bw.writtenBytes ≤ raw →
      (bw.fileOpen = false → bw.flushed = "" ∧ bw.pending = "") →
      (bw.fileOpen = true → bw.startTime = t0) →
      (bw.fileOpen = true → bw.currentPath ≠ "") →
      ((bw.runBatches fmtTs batches t0).closed = false ∧
       archivesContent (bw.runBatches fmtTs batches t0).archives
         ++ ((bw.runBatches fmtTs batches t0).flushed
             ++ (bw.runBatches fmtTs batches t0).pending)
         = written ++ concatNL batches.flatten ∧
       bw.rotateSizeMB * 1024 * 1024 * (bw.runBatches fmtTs batches t0).archives.length
         + (bw.runBatches fmtTs batches t0).writtenBytes
         ≤ raw + rawBytes batches.flatten ∧
       ((bw.runBatches fmtTs batches t0).fileOpen = false →
         (bw.runBatches fmtTs batches t0).flushed = ""
           ∧ (bw.runBatches fmtTs batches t0).pending = "") ∧
       ((bw.runBatches fmtTs batches t0).fileOpen = true →
         (bw.runBatches fmtTs batches t0).currentPath ≠ "") ∧
       (bw.runBatches fmtTs batches t0).rotateSizeMB = bw.rotateSizeMB) := by
  intro batches
  induction batches with
  | nil =>
    intro bw written raw hI hc heq hbound hempty hstart hpath
    refine ⟨hc, ?_, ?_, hempty, hpath, rfl⟩
    · show archivesContent bw.archives ++ (bw.flushed ++ bw.pending) = written ++ concatNL []
      rw [heq]
      show written = written ++ ""
      rw [String.append_empty]
    · show bw.rotateSizeMB * 1024 * 1024 * bw.archives.length + bw.writtenBytes
          ≤ raw + rawBytes []
      have hz : rawBytes ([] : List DataLine) = 0 := rfl
      rw [hz]
      omega
  | cons ls tl ih =>
    intro bw written raw hI hc heq hbound hempty hstart hpath
    obtain ⟨s1, s2, s3, s4, s5, s6, s7, s8⟩ :=
      writeBatch_inv fmtTs t0 bw ls written raw hI hc heq hbound hempty hstart hpath
    have hrun : bw.runBatches fmtTs (ls :: tl) t0
        = (BatchWriter.WriteBatch fmtTs bw ls t0).1.runBatches fmtTs tl t0 := rfl
    rw [hrun]
    obtain ⟨r1, r2, r3, r4, r5, r6⟩ := ih (BatchWriter.WriteBatch fmtTs bw ls t0).1
      (written ++ concatNL ls) (raw + rawBytes ls)
      (by rw [s2]; exact hI) s1 s7 (by rw [s3]; exact s8)
      (fun h => absurd (s4.symm.trans h) (by decide))
      (fun _ => s5) (fun _ => s6)
    refine ⟨r1, ?_, ?_, r4, r5, by rw [r6, s3]⟩
    · rw [r2]
      have hfl : (ls :: tl).flatten = ls ++ tl.flatten := rfl
      rw [hfl, concatNL_append, ← String.append_assoc]
    · have hfl : (ls :: tl).flatten = ls ++ tl.flatten := rfl
      rw [hfl, rawBytes_append]
      rw [s3] at r3
      omega

/-- C1 (amended): for any sequence of batches written at one instant
`t0` with a positive time interval (so no time-based rotation can fire)
and a positive size threshold, after `Close` the concatenation of all
completed archives' decompressed contents in creation order equals the
concatenation of every written line followed by a newline, in write
order — no record duplicated, no record lost; and the number of
completed archives is at most `floor(N / T) + 1` for `N` total raw bytes
and threshold `T` (the final archive, published unconditionally by
`Close`, may hold fewer than `T` bytes — including zero right after a
size-based rotation — so the exact count `ceil(N / T)` claimed does not
hold; see the counterexample). -/
theorem rotation_stream_amended (fmtTs : Nat → String) (d p : String) (iv mb : Nat)
    (batches : List (List DataLine)) (t0 : Nat) (hI : 0 < iv) (hT : 0 < mb) :
    archivesContent ((((NewBatchWriter d p iv mb).runBatches fmtTs batches t0).Close).1).archives
      = concatNL batches.flatten ∧
    ((((NewBatchWriter d p iv mb).runBatches fmtTs batches t0).Close).1).archives.length
      ≤ rawBytes batches.flatten / (mb * 1024 * 1024) + 1 := by
  obtain ⟨r1, r2, r3, r4, r5, r6⟩ := runBatches_inv fmtTs t0 batches (NewBatchWriter d p iv mb)
    "" 0 hI rfl rfl (Nat.le_refl 0) (fun _ => ⟨rfl, rfl⟩)
    (fun h => Bool.noConfusion h) (fun h => Bool.noConfusion h)
  rw [String.empty_append] at r2
  have hmb : (NewBatchWriter d p iv mb).rotateSizeMB = mb := rfl
  rw [hmb] at r3
  set S := (NewBatchWriter d p iv mb).runBatches fmtTs batches t0 with hS
  have hT2 : 0 < mb * 1024 * 1024 :=
    Nat.mul_pos (Nat.mul_pos hT (by norm_num)) (by norm_num)
  have hlen : S.archives.length ≤ rawBytes batches.flatten / (mb * 1024 * 1024) := by
    rw [Nat.le_div_iff_mul_le hT2, Nat.mul_comm]
    omega
  cases hfo : S.fileOpen with
  | true =>
    obtain ⟨pth, hpth⟩ := close_archives_open S r1 hfo (r5 hfo)
    constructor
    · rw [hpth, archivesContent_append_one]
      exact r2
    · rw [hpth, List.length_append, List.length_singleton]
      omega
  | false =>
    obtain ⟨hf, hp2⟩ := r4 hfo
    rcases close_archives_noopen S r1 hfo with h | ⟨pth, hpth⟩
    · constructor
      · rw [h]
        rw [hf, hp2, String.empty_append, String.append_empty] at r2
        exact r2
      · rw [h]
        omega
    · constructor
      · rw [hpth, archivesContent_append_one]
        show archivesContent S.archives ++ S.flushed = _
        rw [hf, String.append_empty]
        rw [hf, hp2, String.empty_append, String.append_empty] at r2
        exact r2
      · rw [hpth, List.length_append, List.length_singleton]
        omega

/-- Witness for C1's amended theorem: one two-byte line, 1 MiB
threshold. -/
theorem rotation_stream_amended_witness :
    (0 : Nat) < 3600 ∧ (0 : Nat) < 1 ∧
    (archivesContent ((((NewBatchWriter "" "p" 3600 1).runBatches (fun _ => "20240101_000000")
        [[⟨"ab", false⟩]] 0).Close).1).archives = concatNL [[(⟨"ab", false⟩ : DataLine)]].flatten ∧
     ((((NewBatchWriter "" "p" 3600 1).runBatches (fun _ => "20240101_000000")
        [[⟨"ab", false⟩]] 0).Close).1).archives.length
       ≤ rawBytes [[(⟨"ab", false⟩ : DataLine)]].flatten / (1 * 1024 * 1024) + 1) :=
  ⟨by decide, by decide,
   rotation_stream_amended (fun _ => "20240101_000000") "" "p" 3600 1
     [[⟨"ab", false⟩]] 0 (by decide) (by decide)⟩

theorem foldl_add_utf8 : ∀ (l : List Char) (acc : Nat),
    l.foldl (fun n c => n + c.utf8Size) acc = acc + (l.map Char.utf8Size).sum := by
  intro l
  induction l with
  | nil => intro acc; simp
  | cons c cs ih =>
    intro acc
    rw [List.foldl_cons, ih, List.map_cons, List.sum_cons]
    omega

theorem sum_replicate_one : ∀ (n : Nat), (List.replicate n (1 : Nat)).sum = n := by
  intro n
  induction n with
  | zero => rfl
  | succ m ih =>
    rw [List.replicate_succ, List.sum_cons, ih]
    omega

theorem utf8Len_bigLine : utf8Len bigLine = 1048575 := by
  have hdata : bigLine.data = List.replicate 1048575 'a' := rfl
  unfold utf8Len
  rw [hdata, foldl_add_utf8, List.map_replicate]
  rw [show ('a'.utf8Size) = 1 from rfl]
  rw [sum_replicate_one, Nat.zero_add]

theorem single_oversized_batch_two_archives (fmtTs : Nat → String) (d p : String)
    (iv mb : Nat) (dl : DataLine) (t0 : Nat)
    (hsize : mb * 1024 * 1024 ≤ utf8Len dl.Line + 1) :
    ((((BatchWriter.WriteBatch fmtTs (NewBatchWriter d p iv mb)
        [dl] t0).1).Close).1).archives.length = 2 := by
  have hsr : (((NewBatchWriter d p iv mb).rotateFile fmtTs t0).writeLines [dl]).shouldRotate t0
      = true := by
    unfold BatchWriter.shouldRotate
    apply Bool.or_eq_true_iff.mpr
    right
    apply decide_eq_true
    have h1 : (((NewBatchWriter d p iv mb).rotateFile fmtTs t0).writeLines [dl]).writtenBytes
        = 0 + rawBytes [dl] := by
      rw [writeLines_writtenBytes, (rotateFile_fields ..).1]
    have h2 : (((NewBatchWriter d p iv mb).rotateFile fmtTs t0).writeLines [dl]).rotateSizeMB
        = mb := by
      rw [(writeLines_fields ..).2.2.2.1, (rotateFile_fields ..).2.2.2.2.2.1]
      rfl
    rw [h1, h2]
    have h3 : rawBytes [dl] = utf8Len dl.Line + 1 := by
      simp [rawBytes]
    rw [h3]
    omega
  have hWB : (BatchWriter.WriteBatch fmtTs (NewBatchWriter d p iv mb) [dl] t0).1
      = (((NewBatchWriter d p iv mb).rotateFile fmtTs t0).writeLines [dl]).flushAndRotate
          fmtTs t0 := by
    rw [writeBatch_eq fmtTs (NewBatchWriter d p iv mb) [dl] t0
      (show (NewBatchWriter d p iv mb).closed = false from rfl)]
    rw [show (NewBatchWriter d p iv mb).fileOpen = false from rfl]
    simp only [Bool.false_eq_true, if_false]
    rw [hsr]
    simp only [if_true]
  rw [hWB]
  have hSc : ((((NewBatchWriter d p iv mb).rotateFile fmtTs t0).writeLines
      [dl]).flushAndRotate fmtTs t0).closed = false := by
    unfold BatchWriter.flushAndRotate
    rw [(rotateFile_fields ..).2.2.2.2.2.2.1, closeAndRename_closed, bufFlush_closed,
      (writeLines_fields ..).2.2.2.2.2.2.2.2.1, (rotateFile_fields ..).2.2.2.2.2.2.1]
    rfl
  have hSo : ((((NewBatchWriter d p iv mb).rotateFile fmtTs t0).writeLines
      [dl]).flushAndRotate fmtTs t0).fileOpen = true := by
    unfold BatchWriter.flushAndRotate
    exact (rotateFile_fields ..).2.2.1
  have hSp : ((((NewBatchWriter d p iv mb).rotateFile fmtTs t0).writeLines
      [dl]).flushAndRotate fmtTs t0).currentPath ≠ "" := by
    unfold BatchWriter.flushAndRotate
    exact rotateFile_currentPath_ne _ _ _
  have hSa : ((((NewBatchWriter d p iv mb).rotateFile fmtTs t0).writeLines
      [dl]).flushAndRotate fmtTs t0).archives.length = 1 := by
    rw [flushAndRotate_archives_len _ _ _ (by
      rw [(writeLines_fields ..).2.2.2.2.2.1]
      exact rotateFile_currentPath_ne _ _ _)]
    rw [(writeLines_fields ..).2.2.2.2.2.2.2.2.2.1, (rotateFile_fields ..).2.2.2.1]
    rfl
  obtain ⟨pth, hpth⟩ := close_archives_open _ hSc hSo hSp
  rw [hpth, List.length_append, hSa]
  rfl

/-- C1's counterexample: with threshold 1 MiB, a single batch holding one
line of exactly `2^20 - 1` bytes (so `N = 2^20 = T` raw bytes with the
newline) produces, after `Close`, two completed archives — the size
rotation publishes the full archive and `Close` publishes the fresh,
empty one — while the claimed count is `ceil(N/T) = 1`. -/
theorem rotation_count_counterexample :
    utf8Len bigLine + 1 = 1048576 ∧
    (1 : Nat) * 1024 * 1024 = 1048576 ∧
    ((((BatchWriter.WriteBatch (fun _ => "20240101_000000") (NewBatchWriter "" "p" 3600 1)
        [⟨bigLine, false⟩] 0).1).Close).1).archives.length = 2 ∧
    (1048576 + 1048576 - 1) / 1048576 = 1 ∧
    (2 : Nat) ≠ 1 := by
  refine ⟨?_, by norm_num, ?_, by norm_num, by norm_num⟩
  · rw [utf8Len_bigLine]
  · apply single_oversized_batch_two_archives
    rw [show utf8Len (DataLine.mk bigLine false).Line = 1048575 from utf8Len_bigLine]
